import Mathlib

/-!
Shallow embedding of the xlsx-analytics ingestion and query pipelines.

Sources embedded here:
- `src/app/actions/upload-file/libs/database.ts` (bundle containing
  `schema.ts`: `sanitizeColumnName`, `createTableName`; and `processor.ts`:
  `processExcelFile`),
- `src/app/actions/upload-file/libs/validator.ts` (`validateDatabase`),
- `src/unnamed/part_003` (`validateSqlQuery`, `DatabaseManager`),
- `src/app/api/chat/libs/llm.ts` (`LLMService.generateSqlQuery`,
  `LLMService.buildRetrySqlPrompt`, `LLMService.createResponseStream`).

JavaScript strings are modelled as Lean `String` (a list of characters);
the JS string operations used by the source (`trim`, `toLowerCase`,
`startsWith`, regex character classes) are defined below on `List Char`
with JS semantics.  The npm `slugify` library (called with the options
`lower: true, strict: true, replacement: '_'`) is embedded from its
published implementation: character-map substitution, replacement-character
to space, removal of characters that are neither alphanumeric nor
whitespace (the combined effect of the default `remove` regex and the
`strict` filter), trim, collapsing of whitespace runs to a single
replacement character, and final lower-casing.  Unicode NFC normalisation
performed by `slugify` is the identity on every character class kept by
the strict filter and is omitted.
-/

namespace XlsxAnalytics

/-- JS regex `\s` and `String.prototype.trim` whitespace class. -/
def jsIsSpace (c : Char) : Bool :=
  c.toNat = 32 || (9 ≤ c.toNat && c.toNat ≤ 13) || c.toNat = 0x00A0 ||
  c.toNat = 0x1680 || (0x2000 ≤ c.toNat && c.toNat ≤ 0x200A) ||
  c.toNat = 0x2028 || c.toNat = 0x2029 || c.toNat = 0x202F ||
  c.toNat = 0x205F || c.toNat = 0x3000 || c.toNat = 0xFEFF

/-- Character class `[A-Za-z0-9]` of the `strict` filter in `slugify`. -/
def isStrictAlnum (c : Char) : Bool :=
  (48 ≤ c.toNat && c.toNat ≤ 57) || (65 ≤ c.toNat && c.toNat ≤ 90) ||
  (97 ≤ c.toNat && c.toNat ≤ 122)

/-- Character class `[a-z0-9]` (lower-case output alphabet of `slugify`). -/
def isLowerAlnum (c : Char) : Bool :=
  (48 ≤ c.toNat && c.toNat ≤ 57) || (97 ≤ c.toNat && c.toNat ≤ 122)

/-- Character class `[0-9]`, the JS regex `\d` used by `/^\d/`. -/
def isDigitChar (c : Char) : Bool :=
  48 ≤ c.toNat && c.toNat ≤ 57

/-- JS `String.prototype.toLowerCase` restricted to ASCII letters; the
characters reaching it in the slugify pipeline are ASCII alphanumerics
and spaces, on which JS and ASCII lower-casing agree. -/
def jsToLowerChar (c : Char) : Char :=
  if 65 ≤ c.toNat && c.toNat ≤ 90 then Char.ofNat (c.toNat + 32) else c

/-- Drop leading JS whitespace. -/
def dropLeadWs (l : List Char) : List Char :=
  l.dropWhile jsIsSpace

/-- Drop trailing JS whitespace. -/
def dropTrailWs (l : List Char) : List Char :=
  (l.reverse.dropWhile jsIsSpace).reverse

/-- JS `String.prototype.trim` on a character list. -/
def jsTrimList (l : List Char) : List Char :=
  dropTrailWs (dropLeadWs l)

/-- JS `String.prototype.trim`. -/
def jsTrim (s : String) : String :=
  ⟨jsTrimList s.data⟩

/-- Prefix test on character lists (JS `String.prototype.startsWith`). -/
def isPrefixList : List Char → List Char → Bool
  | [], _ => true
  | _ :: _, [] => false
  | c :: cs, d :: ds => c = d && isPrefixList cs ds

/-- JS `String.prototype.startsWith`. -/
def jsStartsWith (s p : String) : Bool :=
  isPrefixList p.data s.data

/-- JS `String.prototype.toLowerCase` (ASCII fragment, see
`jsToLowerChar`). -/
def jsToLower (s : String) : String :=
  ⟨s.data.map jsToLowerChar⟩

/-- The fragment of npm slugify's character map exercised by ingestion:
symbol characters transliterated to words.  ASCII alphanumerics, the
underscore and whitespace have no entry in the published map. -/
def charMapList : List (Char × String) :=
  [('$', "dollar"), ('%', "percent"), ('&', "and"),
   ('<', "less"), ('>', "greater"), ('|', "or")]

/-- Lookup in the slugify character map. -/
def charMap (c : Char) : Option String :=
  (charMapList.find? (fun p => p.1 = c)).map (fun p => p.2)

/-- Per-character step of slugify: substitute via the character map, then
turn a result equal to the replacement character `_` into a space (the
`if (appendChar === replacement) appendChar = ' '` line of slugify). -/
def slugMapChar (c : Char) : List Char :=
  let a : String := (charMap c).getD ⟨[c]⟩
  if a = "_" then [' '] else a.data

/-- Combined effect of slugify's default `remove` regex and the `strict`
filter `[^A-Za-z0-9\s]`: keep exactly ASCII alphanumerics and whitespace. -/
def slugKeep (c : Char) : Bool :=
  isStrictAlnum c || jsIsSpace c

/-- Replace each maximal run of whitespace with a single `_` (slugify's
`slug.replace(/\s+/g, replacement)` with replacement `_`).  The flag
records whether the previous character belonged to a whitespace run. -/
def collapseWs (inWs : Bool) : List Char → List Char
  | [] => []
  | c :: cs =>
    if jsIsSpace c then
      if inWs then collapseWs true cs else '_' :: collapseWs true cs
    else c :: collapseWs false cs

/-- npm `slugify(s, { lower: true, strict: true, replacement: '_' })`:
character-map substitution and filtering, trim, whitespace-run collapse,
lower-casing. -/
def slugify (s : String) : String :=
  ⟨(collapseWs false (jsTrimList ((s.data.flatMap slugMapChar).filter slugKeep))).map
    jsToLowerChar⟩

/-- `sanitizeColumnName` from `schema.ts`: slugify, then prefix `col_`
when the slug starts with a digit (`/^\d/`). -/
def sanitizeColumnName (columnName : String) : String :=
  let sanitized := slugify columnName
  match sanitized.data with
  | c :: _ => if isDigitChar c then "col_" ++ sanitized else sanitized
  | [] => sanitized

/-- `createTableName` from `schema.ts`: prefix `sheet_` to the slugified
sheet name. -/
def createTableName (sheetName : String) : String :=
  "sheet_" ++ slugify sheetName

example : sanitizeColumnName "Name" = "name" := by decide
example : sanitizeColumnName "2024 Revenue" = "col_2024_revenue" := by decide
example : sanitizeColumnName "!" = "" := by decide
example : createTableName "Sheet 1" = "sheet_sheet_1" := by decide
example : sanitizeColumnName "Revenue $" = "revenue_dollar" := by decide

/-- Character class `[a-z]` (first-character class of the slug regex,
together with the underscore). -/
def isLowerAlpha (c : Char) : Bool :=
  97 ≤ c.toNat && c.toNat ≤ 122

/-- Output alphabet of the slugify pipeline: `[a-z0-9_]`. -/
def goodChar (c : Char) : Bool :=
  isLowerAlnum c || c = '_'

/-- The regular expression of the spec, `^[a-z_][a-z0-9_]*$`. -/
def matchesSlugPattern (s : String) : Bool :=
  match s.data with
  | [] => false
  | c :: cs => (isLowerAlpha c || c = '_') && cs.all goodChar

/-- Recogniser for the image of `slugify`: `u` records whether the
previous character was the separator `_`.  A slug never has two adjacent
separators and never ends in one. -/
def sluggedFrom (u : Bool) : List Char → Bool
  | [] => !u
  | c :: cs =>
    if isLowerAlnum c then sluggedFrom false cs
    else if c = '_' then !u && sluggedFrom true cs
    else false

/-- A slug is empty or starts with a lower-case alphanumeric and then
alternates alphanumeric runs with single separators. -/
def isSlugged : List Char → Bool
  | [] => true
  | c :: cs => isLowerAlnum c && sluggedFrom false cs

theorem strictAlnum_not_space {c : Char} (h : isStrictAlnum c = true) :
    jsIsSpace c = false := by
  simp [isStrictAlnum] at h
  simp [jsIsSpace]
  omega

theorem lowerAlnum_strict {c : Char} (h : isLowerAlnum c = true) :
    isStrictAlnum c = true := by
  simp [isLowerAlnum] at h
  simp [isStrictAlnum]
  omega

theorem lowerAlnum_ne_underscore {c : Char} (h : isLowerAlnum c = true) :
    c ≠ '_' := by
  intro hEq
  subst hEq
  simp [isLowerAlnum] at h

theorem toLowerChar_fix_lower {c : Char} (h : isLowerAlnum c = true) :
    jsToLowerChar c = c := by
  simp [isLowerAlnum] at h
  simp [jsToLowerChar]
  omega

theorem toLowerChar_underscore : jsToLowerChar '_' = '_' := by decide

theorem char_ofNat_toNat {n : Nat} (h1 : 97 ≤ n) (h2 : n ≤ 122) :
    (Char.ofNat n).toNat = n := by
  have hv : n.isValidChar := by
    unfold Nat.isValidChar
    omega
  simp [Char.ofNat, hv, Char.ofNatAux, Char.toNat, UInt32.toNat, UInt32.ofNatCore]

theorem toLowerChar_lowers {c : Char} (h : isStrictAlnum c = true) :
    isLowerAlnum (jsToLowerChar c) = true := by
  simp [isStrictAlnum] at h
  by_cases hu : (65 ≤ c.toNat && c.toNat ≤ 90) = true
  · simp at hu
    have hval := char_ofNat_toNat (n := c.toNat + 32) (by omega) (by omega)
    simp [jsToLowerChar, hu]
    simp [isLowerAlnum, hval]
    omega
  · simp at hu
    simp [jsToLowerChar]
    rw [if_neg (by omega : ¬ (65 ≤ c.toNat ∧ c.toNat ≤ 90))]
    simp [isLowerAlnum]
    omega

theorem charMap_good_none {c : Char} (h : goodChar c = true) :
    charMap c = none := by
  simp [charMap]
  intro a b hp hEq
  subst hEq
  fin_cases hp <;> simp [goodChar, isLowerAlnum] at h

/-- The head of the list is not JS whitespace (or the list is empty). -/
def noLeadWs : List Char → Bool
  | [] => true
  | c :: _ => !jsIsSpace c

/-- The last element of the list is not JS whitespace (or the list is
empty). -/
def noTrailWs (l : List Char) : Bool :=
  match l.getLast? with
  | none => true
  | some c => !jsIsSpace c

theorem noLeadWs_dropWhile (l : List Char) :
    noLeadWs (l.dropWhile jsIsSpace) = true := by
  induction l with
  | nil => rfl
  | cons c cs ih =>
    by_cases hc : jsIsSpace c = true
    · simpa [List.dropWhile, hc] using ih
    · simp [List.dropWhile, hc, noLeadWs]

theorem head?_dropWhile_not {p : Char → Bool} :
    ∀ (l : List Char) (c : Char), (l.dropWhile p).head? = some c → p c = false := by
  intro l
  induction l with
  | nil => intro c h; simp [List.dropWhile] at h
  | cons d ds ih =>
    intro c h
    by_cases hd : p d = true
    · rw [List.dropWhile_cons_of_pos hd] at h
      exact ih c h
    · rw [List.dropWhile_cons_of_neg hd] at h
      simp at h
      subst h
      simpa using hd

theorem noTrailWs_dropTrailWs (l : List Char) :
    noTrailWs (dropTrailWs l) = true := by
  unfold noTrailWs
  cases hlast : (dropTrailWs l).getLast? with
  | none => rfl
  | some c =>
    have hh : (dropTrailWs l).reverse.head? = some c := by
      rw [List.head?_reverse]
      exact hlast
    have hrev : (dropTrailWs l).reverse = l.reverse.dropWhile jsIsSpace := by
      unfold dropTrailWs
      rw [List.reverse_reverse]
    rw [hrev] at hh
    simp [head?_dropWhile_not _ _ hh]

theorem noLeadWs_dropTrailWs {l : List Char} (h : noLeadWs l = true) :
    noLeadWs (dropTrailWs l) = true := by
  have hsuf : (dropTrailWs l).reverse <:+ l.reverse := by
    have := List.dropWhile_suffix (l := l.reverse) jsIsSpace
    unfold dropTrailWs
    rw [List.reverse_reverse]
    exact this
  have hpre : dropTrailWs l <+: l := List.reverse_suffix.mp hsuf
  obtain ⟨t, ht⟩ := hpre
  cases hdt : dropTrailWs l with
  | nil => rfl
  | cons d ds =>
    rw [hdt] at ht
    rw [← ht] at h
    simpa [noLeadWs] using h

theorem noTrailWs_suffix {l₁ l₂ : List Char} (h : l₂ <:+ l₁)
    (ht : noTrailWs l₁ = true) : noTrailWs l₂ = true := by
  cases l₂ with
  | nil => rfl
  | cons d ds =>
    obtain ⟨a, ha⟩ := h
    unfold noTrailWs at ht ⊢
    cases hgl : (d :: ds).getLast? with
    | none =>
      simp at hgl
    | some x =>
      rw [← ha, List.getLast?_append, hgl] at ht
      simpa using ht

theorem noTrailWs_allSpace {l : List Char} (hne : l ≠ [])
    (hall : ∀ c ∈ l, jsIsSpace c = true) : noTrailWs l = false := by
  unfold noTrailWs
  rw [List.getLast?_eq_getLast_of_ne_nil hne]
  simp [hall _ (List.getLast_mem hne)]

theorem mem_jsTrimList {l : List Char} {c : Char} (h : c ∈ jsTrimList l) :
    c ∈ l := by
  unfold jsTrimList dropTrailWs dropLeadWs at h
  have h1 : c ∈ ((l.dropWhile jsIsSpace).reverse.dropWhile jsIsSpace).reverse :=
    h
  rw [List.mem_reverse] at h1
  have h2 := (List.dropWhile_sublist jsIsSpace).mem h1
  rw [List.mem_reverse] at h2
  exact (List.dropWhile_sublist jsIsSpace).mem h2

theorem collapseWs_true_eq (l : List Char) :
    collapseWs true l = collapseWs false (l.dropWhile jsIsSpace) := by
  induction l with
  | nil => rfl
  | cons c cs ih =>
    by_cases hc : jsIsSpace c = true
    · rw [List.dropWhile_cons_of_pos hc]
      simp [collapseWs, hc, ih]
    · rw [List.dropWhile_cons_of_neg hc]
      simp [collapseWs, hc]

theorem slug_shape (n : Nat) : ∀ l : List Char, l.length ≤ n →
    (∀ c ∈ l, slugKeep c = true) → noTrailWs l = true →
    sluggedFrom false ((collapseWs false l).map jsToLowerChar) = true ∧
    (l ≠ [] → noLeadWs l = true →
      sluggedFrom true ((collapseWs false l).map jsToLowerChar) = true) := by
  induction n with
  | zero =>
    intro l hlen _ _
    have : l = [] := List.length_eq_zero.mp (Nat.le_zero.mp hlen)
    subst this
    exact ⟨by decide, fun h _ => absurd rfl h⟩
  | succ n ih =>
    intro l hlen hkeep htrail
    cases l with
    | nil => exact ⟨by decide, fun h _ => absurd rfl h⟩
    | cons c cs =>
      have hkeep_cs : ∀ x ∈ cs, slugKeep x = true :=
        fun x hx => hkeep x (List.mem_cons_of_mem _ hx)
      have htrail_cs : noTrailWs cs = true :=
        noTrailWs_suffix (List.suffix_cons c cs) htrail
      by_cases hsp : jsIsSpace c = true
      · -- whitespace head: the collapse emits a single separator and then
        -- proceeds from the first non-whitespace character of the tail
        have hv_ne : cs.dropWhile jsIsSpace ≠ [] := by
          intro hve
          have hall : ∀ x ∈ cs, jsIsSpace x = true :=
            List.dropWhile_eq_nil_iff.mp hve
          have hall2 : ∀ x ∈ c :: cs, jsIsSpace x = true := by
            intro x hx
            rcases List.mem_cons.mp hx with h1 | h2
            · subst h1; exact hsp
            · exact hall _ h2
          rw [noTrailWs_allSpace (by simp) hall2] at htrail
          exact Bool.false_ne_true htrail
        have hv_len : (cs.dropWhile jsIsSpace).length ≤ n := by
          have h1 := (List.dropWhile_sublist (l := cs) jsIsSpace).length_le
          simp at hlen
          omega
        have hv_keep : ∀ x ∈ cs.dropWhile jsIsSpace, slugKeep x = true :=
          fun x hx => hkeep_cs x ((List.dropWhile_sublist jsIsSpace).mem hx)
        have hv_trail : noTrailWs (cs.dropWhile jsIsSpace) = true :=
          noTrailWs_suffix (List.dropWhile_suffix jsIsSpace) htrail_cs
        have hv_lead : noLeadWs (cs.dropWhile jsIsSpace) = true :=
          noLeadWs_dropWhile cs
        have hrec := (ih (cs.dropWhile jsIsSpace) hv_len hv_keep hv_trail).2
          hv_ne hv_lead
        have hcol : collapseWs false (c :: cs) =
            '_' :: collapseWs false (cs.dropWhile jsIsSpace) := by
          simp [collapseWs, hsp, collapseWs_true_eq]
        have h95 : isLowerAlnum '_' = false := by decide
        constructor
        · rw [hcol]
          simp only [List.map_cons, toLowerChar_underscore]
          simp [sluggedFrom, h95, hrec]
        · intro _ hlead
          simp [noLeadWs, hsp] at hlead
      · -- alphanumeric head: it survives the collapse and is lower-cased
        have hca : isStrictAlnum c = true := by
          have := hkeep c (List.mem_cons_self c cs)
          simp [slugKeep, hsp] at this
          exact this
        have hcs_len : cs.length ≤ n := by
          simp at hlen
          omega
        have hrec := (ih cs hcs_len hkeep_cs htrail_cs).1
        have hcol : collapseWs false (c :: cs) = c :: collapseWs false cs := by
          simp [collapseWs, hsp]
        have hgoal : sluggedFrom false
            ((collapseWs false (c :: cs)).map jsToLowerChar) = true := by
          rw [hcol]
          simp only [List.map_cons]
          simp [sluggedFrom, toLowerChar_lowers hca, hrec]
        refine ⟨hgoal, fun _ _ => ?_⟩
        rw [hcol]
        simp only [List.map_cons]
        simp [sluggedFrom, toLowerChar_lowers hca, hrec]

theorem isSlugged_slugify (s : String) : isSlugged (slugify s).data = true := by
  show isSlugged ((collapseWs false
    (jsTrimList ((s.data.flatMap slugMapChar).filter slugKeep))).map
      jsToLowerChar) = true
  have hkeep : ∀ c ∈ jsTrimList ((s.data.flatMap slugMapChar).filter slugKeep),
      slugKeep c = true := by
    intro c hc
    exact List.of_mem_filter (mem_jsTrimList hc)
  have hlead : noLeadWs
      (jsTrimList ((s.data.flatMap slugMapChar).filter slugKeep)) = true := by
    unfold jsTrimList dropLeadWs
    exact noLeadWs_dropTrailWs (noLeadWs_dropWhile _)
  have htrail : noTrailWs
      (jsTrimList ((s.data.flatMap slugMapChar).filter slugKeep)) = true := by
    unfold jsTrimList
    exact noTrailWs_dropTrailWs _
  cases hu : jsTrimList ((s.data.flatMap slugMapChar).filter slugKeep) with
  | nil => decide
  | cons c cs =>
    rw [hu] at hkeep hlead htrail
    have hsp : jsIsSpace c = false := by
      simpa [noLeadWs] using hlead
    have hca : isStrictAlnum c = true := by
      have := hkeep c (List.mem_cons_self c cs)
      simpa [slugKeep, hsp] using this
    have hcol : collapseWs false (c :: cs) = c :: collapseWs false cs := by
      simp [collapseWs, hsp]
    have hrec := (slug_shape cs.length cs le_rfl
      (fun x hx => hkeep x (List.mem_cons_of_mem _ hx))
      (noTrailWs_suffix (List.suffix_cons c cs) htrail)).1
    rw [hcol]
    simp only [List.map_cons]
    simp [isSlugged, toLowerChar_lowers hca, hrec]

/-- Substitution performed on an already-slugged string by a second pass
of the pipeline: the separator turns into a space, everything else is
untouched. -/
def substChar (c : Char) : Char :=
  if c = '_' then ' ' else c

theorem sluggedFrom_good {w : List Char} :
    ∀ {u : Bool}, sluggedFrom u w = true → ∀ c ∈ w, goodChar c = true := by
  induction w with
  | nil => intro u _ c hc; simp at hc
  | cons d ds ih =>
    intro u h c hc
    by_cases hd : isLowerAlnum d = true
    · rw [show sluggedFrom u (d :: ds) = sluggedFrom false ds by
        simp [sluggedFrom, hd]] at h
      rcases List.mem_cons.mp hc with h1 | h2
      · subst h1; simp [goodChar, hd]
      · exact ih h c h2
    · by_cases hdu : d = '_'
      · subst hdu
        have h2 : sluggedFrom true ds = true := by
          simp [sluggedFrom, hd] at h
          exact h.2
        rcases List.mem_cons.mp hc with h1 | h3
        · subst h1; simp [goodChar]
        · exact ih h2 c h3
      · simp [sluggedFrom, hd, hdu] at h

theorem flatMap_filter_good {w : List Char}
    (h : ∀ c ∈ w, goodChar c = true) :
    (w.flatMap slugMapChar).filter slugKeep = w.map substChar := by
  induction w with
  | nil => rfl
  | cons c cs ih =>
    have hc := h c (List.mem_cons_self c cs)
    have hcs := fun x hx => h x (List.mem_cons_of_mem _ hx)
    rw [List.flatMap_cons, List.filter_append, ih hcs, List.map_cons]
    have hhead : List.filter slugKeep (slugMapChar c) = [substChar c] := by
      by_cases hu : c = '_'
      · subst hu
        decide
      · have hl : isLowerAlnum c = true := by
          simpa [goodChar, hu] using hc
        have hmap : charMap c = none := charMap_good_none hc
        have hstep : slugMapChar c = [c] := by
          unfold slugMapChar
          rw [hmap]
          simp only [Option.getD]
          rw [if_neg]
          intro hEq
          exact hu (by
            have : [c] = ['_'] := congrArg String.data hEq
            simpa using this)
        rw [hstep]
        have hk : slugKeep c = true := by
          simp [slugKeep, lowerAlnum_strict hl]
        simp [hk, substChar, hu]
    rw [hhead]
    rfl

theorem sluggedFrom_getLast {w : List Char} :
    ∀ {u : Bool} {c : Char}, sluggedFrom u w = true → w.getLast? = some c →
      isLowerAlnum c = true := by
  induction w with
  | nil => intro u c _ hl; simp at hl
  | cons d ds ih =>
    intro u c h hl
    cases hds : ds with
    | nil =>
      subst hds
      simp at hl
      subst hl
      by_cases hd : isLowerAlnum d = true
      · exact hd
      · by_cases hdu : d = '_'
        · subst hdu
          simp [sluggedFrom, hd] at h
        · simp [sluggedFrom, hd, hdu] at h
    | cons e es =>
      subst hds
      have hl2 : (e :: es).getLast? = some c := by
        simpa [List.getLast?_cons_cons] using hl
      by_cases hd : isLowerAlnum d = true
      · have h2 : sluggedFrom false (e :: es) = true := by
          simpa [sluggedFrom, hd] using h
        exact ih h2 hl2
      · by_cases hdu : d = '_'
        · subst hdu
          have h2 : sluggedFrom true (e :: es) = true := by
            simp [sluggedFrom, hd] at h
            simp [sluggedFrom, h.2.1, h.2.2]
          exact ih h2 hl2
        · simp [sluggedFrom, hd, hdu] at h

theorem jsTrimList_fix {l : List Char} (hl : noLeadWs l = true)
    (ht : noTrailWs l = true) : jsTrimList l = l := by
  have h1 : dropLeadWs l = l := by
    cases l with
    | nil => rfl
    | cons c cs =>
      have : jsIsSpace c = false := by simpa [noLeadWs] using hl
      unfold dropLeadWs
      rw [List.dropWhile_cons_of_neg (by simp [this])]
  unfold jsTrimList
  rw [h1]
  unfold dropTrailWs
  cases hr : l.reverse with
  | nil =>
    have : l = [] := by simpa using congrArg List.reverse hr
    subst this
    rfl
  | cons x xs =>
    have hx : l.getLast? = some x := by
      rw [← List.head?_reverse, hr]
      rfl
    have hxs : jsIsSpace x = false := by
      unfold noTrailWs at ht
      rw [hx] at ht
      simpa using ht
    have hstep : List.dropWhile jsIsSpace (x :: xs) = x :: xs :=
      List.dropWhile_cons_of_neg (by simp [hxs])
    rw [hstep, ← hr, List.reverse_reverse]

theorem collapseWs_subst {w : List Char} :
    ∀ {u : Bool}, sluggedFrom u w = true →
      collapseWs u (w.map substChar) = w := by
  induction w with
  | nil => intro u _; rfl
  | cons c cs ih =>
    intro u h
    by_cases hc : isLowerAlnum c = true
    · have h2 : sluggedFrom false cs = true := by
        simpa [sluggedFrom, hc] using h
      have hsub : substChar c = c := by
        simp [substChar, lowerAlnum_ne_underscore hc]
      have hsp : jsIsSpace c = false :=
        strictAlnum_not_space (lowerAlnum_strict hc)
      cases u with
      | false => simp [List.map_cons, hsub, collapseWs, hsp, ih h2]
      | true => simp [List.map_cons, hsub, collapseWs, hsp, ih h2]
    · by_cases hcu : c = '_'
      · subst hcu
        simp [sluggedFrom, hc] at h
        have hu : u = false := by
          rcases h with ⟨h1, _⟩
          cases u
          · rfl
          · simp at h1
        subst hu
        have hsub : substChar '_' = ' ' := by decide
        simp [List.map_cons, hsub, collapseWs, show jsIsSpace ' ' = true by decide,
          ih h.2]
      · simp [sluggedFrom, hc, hcu] at h

theorem map_toLower_good {w : List Char}
    (h : ∀ c ∈ w, goodChar c = true) : w.map jsToLowerChar = w := by
  induction w with
  | nil => rfl
  | cons c cs ih =>
    have hc := h c (List.mem_cons_self c cs)
    rw [List.map_cons, ih (fun x hx => h x (List.mem_cons_of_mem _ hx))]
    congr 1
    by_cases hu : c = '_'
    · subst hu; decide
    · exact toLowerChar_fix_lower (by simpa [goodChar, hu] using hc)

theorem slugify_fix {w : List Char} (h : isSlugged w = true) :
    slugify ⟨w⟩ = ⟨w⟩ := by
  cases w with
  | nil => decide
  | cons c cs =>
    have hc : isLowerAlnum c = true := by
      simp [isSlugged] at h
      exact h.1
    have hsf : sluggedFrom false (c :: cs) = true := by
      simp [isSlugged] at h
      simp [sluggedFrom, hc, h.2]
    have hgood := sluggedFrom_good hsf
    unfold slugify
    congr 1
    rw [show (String.mk (c :: cs)).data = c :: cs from rfl]
    rw [flatMap_filter_good hgood]
    have hlead : noLeadWs ((c :: cs).map substChar) = true := by
      have hsub : substChar c = c := by
        simp [substChar, lowerAlnum_ne_underscore hc]
      simp [List.map_cons, noLeadWs, hsub,
        strictAlnum_not_space (lowerAlnum_strict hc)]
    have htrail : noTrailWs ((c :: cs).map substChar) = true := by
      unfold noTrailWs
      cases hgl : ((c :: cs).map substChar).getLast? with
      | none => rfl
      | some x =>
        rw [List.getLast?_map] at hgl
        cases hgl0 : (c :: cs).getLast? with
        | none => simp at hgl0
        | some y =>
          rw [hgl0] at hgl
          simp at hgl
          have hy : isLowerAlnum y = true := sluggedFrom_getLast hsf hgl0
          have hsuby : substChar y = y := by
            simp [substChar, lowerAlnum_ne_underscore hy]
          rw [← hgl, hsuby]
          simp [strictAlnum_not_space (lowerAlnum_strict hy)]
    rw [jsTrimList_fix hlead htrail]
    rw [collapseWs_subst hsf]
    exact map_toLower_good hgood

theorem slugify_idem (s : String) : slugify (slugify s) = slugify s := by
  have h := isSlugged_slugify s
  have h2 := slugify_fix h
  exact h2

theorem slugify_fix_str {t : String} (h : isSlugged t.data = true) :
    slugify t = t :=
  slugify_fix h

theorem isSlugged_col_prefix {c : Char} {cs : List Char}
    (h1 : isLowerAlnum c = true) (h2 : sluggedFrom false cs = true) :
    isSlugged ('c' :: 'o' :: 'l' :: '_' :: c :: cs) = true := by
  have ha : isLowerAlnum 'c' = true := by decide
  have hb : isLowerAlnum 'o' = true := by decide
  have hcl : isLowerAlnum 'l' = true := by decide
  have hu : isLowerAlnum '_' = false := by decide
  simp [isSlugged, sluggedFrom, ha, hb, hcl, hu, h1, h2]

theorem isSlugged_sheet_prefix {c : Char} {cs : List Char}
    (h1 : isLowerAlnum c = true) (h2 : sluggedFrom false cs = true) :
    isSlugged ('s' :: 'h' :: 'e' :: 'e' :: 't' :: '_' :: c :: cs) = true := by
  have ha : isLowerAlnum 's' = true := by decide
  have hb : isLowerAlnum 'h' = true := by decide
  have hcl : isLowerAlnum 'e' = true := by decide
  have hd : isLowerAlnum 't' = true := by decide
  have hu : isLowerAlnum '_' = false := by decide
  simp [isSlugged, sluggedFrom, ha, hb, hcl, hd, hu, h1, h2]

theorem isSlugged_sanitize (s : String) :
    isSlugged (sanitizeColumnName s).data = true := by
  have hslug := isSlugged_slugify s
  unfold sanitizeColumnName
  cases hd : (slugify s).data with
  | nil =>
    simp only [hd]
    decide
  | cons c cs =>
    rw [hd] at hslug
    simp [isSlugged] at hslug
    simp only [hd]
    by_cases hdg : isDigitChar c = true
    · rw [if_pos hdg]
      rw [String.data_append, show ("col_" : String).data = ['c', 'o', 'l', '_']
        from rfl, hd]
      exact isSlugged_col_prefix hslug.1 hslug.2
    · rw [if_neg hdg, hd]
      simp [isSlugged, hslug.1, hslug.2]

theorem sanitize_head_not_digit (s : String) :
    (sanitizeColumnName s).data = [] ∨
    (∀ c cs, (sanitizeColumnName s).data = c :: cs → isDigitChar c = false) := by
  unfold sanitizeColumnName
  cases hd : (slugify s).data with
  | nil =>
    left
    simp only [hd]
  | cons c cs =>
    right
    intro x xs
    simp only [hd]
    by_cases hdg : isDigitChar c = true
    · rw [if_pos hdg]
      rw [String.data_append, show ("col_" : String).data = ['c', 'o', 'l', '_']
        from rfl]
      intro hEq
      have : x = 'c' := by
        have := congrArg List.head? hEq
        simpa using this.symm
      subst this
      decide
    · rw [if_neg hdg, hd]
      intro hEq
      have : x = c := by
        have := congrArg List.head? hEq
        simpa using this.symm
      subst this
      simpa using hdg

theorem sanitize_slugged_fix {t : String} (h1 : isSlugged t.data = true)
    (h2 : t.data = [] ∨ ∀ c cs, t.data = c :: cs → isDigitChar c = false) :
    sanitizeColumnName t = t := by
  unfold sanitizeColumnName
  rw [slugify_fix_str h1]
  cases hd : t.data with
  | nil => simp only [hd]
  | cons c cs =>
    rcases h2 with h2 | h2
    · rw [h2] at hd
      simp at hd
    · simp only [hd]
      rw [if_neg (by simp [h2 c cs hd])]

theorem sanitizeColumnName_idem (s : String) :
    sanitizeColumnName (sanitizeColumnName s) = sanitizeColumnName s :=
  sanitize_slugged_fix (isSlugged_sanitize s) (sanitize_head_not_digit s)

theorem createTableName_not_idem (s : String) :
    createTableName (createTableName s) ≠ createTableName s := by
  intro hEq
  have hlen := congrArg (fun t => t.data.length) hEq
  unfold createTableName at hlen
  cases hd : (slugify s).data with
  | nil =>
    have hempty : slugify s = ⟨[]⟩ := by rw [← hd]
    rw [hempty] at hlen
    have hinner : slugify ("sheet_" ++ (⟨[]⟩ : String)) = "sheet" := by decide
    rw [hinner] at hlen
    simp [String.data_append] at hlen
  | cons c cs =>
    have hslug := isSlugged_slugify s
    rw [hd] at hslug
    simp [isSlugged] at hslug
    have hbig : isSlugged ("sheet_" ++ slugify s).data = true := by
      rw [String.data_append,
        show ("sheet_" : String).data = ['s', 'h', 'e', 'e', 't', '_'] from rfl,
        hd]
      exact isSlugged_sheet_prefix hslug.1 hslug.2
    rw [slugify_fix_str hbig] at hlen
    simp [String.data_append] at hlen
    omega

theorem sanitize_pattern (s : String) :
    sanitizeColumnName s = "" ∨
    matchesSlugPattern (sanitizeColumnName s) = true := by
  have hslug := isSlugged_sanitize s
  rcases sanitize_head_not_digit s with hnil | hnd2
  · left
    have : sanitizeColumnName s = ⟨[]⟩ := by rw [← hnil]
    rw [this]
  · cases hd : (sanitizeColumnName s).data with
    | nil =>
      left
      have : sanitizeColumnName s = ⟨[]⟩ := by rw [← hd]
      rw [this]
    | cons c cs =>
      right
      rw [hd] at hslug
      simp [isSlugged] at hslug
      unfold matchesSlugPattern
      rw [hd]
      have hgood := sluggedFrom_good hslug.2
      have hdig : isDigitChar c = false := hnd2 c cs hd
      have halpha : isLowerAlpha c = true := by
        have := hslug.1
        simp [isLowerAlnum] at this
        simp [isDigitChar] at hdig
        simp [isLowerAlpha]
        omega
      simp [halpha]
      intro x hx
      exact hgood x hx

/-! ### SQL guard (`validateSqlQuery`, `src/unnamed/part_003`) -/

/-- The `dangerousOperations` list of `validateSqlQuery`. -/
def dangerousOperations : List String :=
  ["delete", "drop", "alter", "create", "insert", "update"]

/-- `validateSqlQuery` from `src/unnamed/part_003`: trim and lower-case
the statement, then throw when it starts with one of the mutating verbs.
The thrown `Error` is modelled as `Except.error` carrying its message. -/
def validateSqlQuery (query : String) : Except String Unit :=
  let normalizedQuery := jsToLower (jsTrim query)
  if dangerousOperations.any (fun op => jsStartsWith normalizedQuery op) then
    Except.error "Only SELECT queries are allowed for security reasons"
  else Except.ok ()

/-- Spec-side predicate: the statement `s` begins, case-insensitively,
with the word `p` (both sides compared after ASCII lower-casing). -/
def beginsWithCaseInsensitive (p s : String) : Bool :=
  isPrefixList (p.data.map jsToLowerChar) (s.data.map jsToLowerChar)

/-! ### Workbook ingestion (`processExcelFile`, `processor.ts`) -/

/-- One parsed worksheet row as produced by `XLSX.utils.sheet_to_json`
with `defval: null, raw: false, blankrows: false`: a JS object mapping
original header text to a formatted cell string or `null`. -/
abbrev Row := List (String × Option String)

/-- The parsed workbook: ordered sheet names with their parsed rows
(`wb.SheetNames` and `sheet_to_json` of each sheet; blank rows are
already removed by the parser). -/
structure Workbook where
  sheets : List (String × List Row)

/-- One relational table of the DuckDB file: its name, its columns in
order, each carrying the declared data type (always `TEXT`, from
`cols.map(c => "c" TEXT)` in `createTableSQL`), and its inserted rows. -/
structure Table where
  name : String
  cols : List (String × String)
  rows : List (List String)

/-- The embedded database file: the ordered list of its tables. -/
structure Database where
  tables : List Table

/-- `DROP TABLE IF EXISTS name`. -/
def dropTableIfExists (db : Database) (name : String) : Database :=
  ⟨db.tables.filter (fun t => !(t.name == name))⟩

/-- `CREATE TABLE` appends the new table. -/
def createTable (db : Database) (t : Table) : Database :=
  ⟨db.tables ++ [t]⟩

/-- Insertion into a JS object / `Map`: an existing key keeps its
position but receives the new value, a new key is appended. -/
def recInsert {α : Type} (k : String) (v : α) :
    List (String × α) → List (String × α)
  | [] => [(k, v)]
  | (k2, v2) :: rest =>
    if k2 = k then (k, v) :: rest else (k2, v2) :: recInsert k v rest

/-- `Object.fromEntries`: later entries with the same key overwrite
earlier ones, which keep their position. -/
def fromEntries {α : Type} (entries : List (String × α)) :
    List (String × α) :=
  entries.foldl (fun acc p => recInsert p.1 p.2 acc) []

/-- `Object.keys` (insertion order). -/
def recKeys {α : Type} (r : List (String × α)) : List String :=
  r.map (fun p => p.1)

/-- JS property read `r[k]`, yielding `undefined` (`none`) when absent. -/
def recLookup {α : Type} (r : List (String × α)) (k : String) : Option α :=
  (r.find? (fun p => p.1 = k)).map (fun p => p.2)

/-- The column filter `col && !col.startsWith('__EMPTY')` of
`processExcelFile`. -/
def keepCol (col : String) : Bool :=
  !(col == "") && !(jsStartsWith col "__EMPTY")

/-- Cell extraction for insertion: `row[originalCol]` is `''` when null
or undefined and `String(value).trim()` otherwise. -/
def cellValue (row : Row) (origCol : String) : String :=
  match recLookup row origCol with
  | some (some v) => jsTrim v
  | _ => ""

/-- The `colMapping` object of `processExcelFile`: sanitized name to
original header, built from the first row's keys with placeholder
columns dropped; duplicate sanitized names are overwritten by the later
header. -/
def sheetColMapping (rows : List Row) : List (String × String) :=
  fromEntries
    ((((rows.headD []).map (fun p => p.1)).filter keepCol).map
      (fun col => (sanitizeColumnName col, col)))

/-- The `cols` list: keys of `colMapping`. -/
def sheetCols (rows : List Row) : List String :=
  recKeys (sheetColMapping rows)

/-- The values bound for one row: for each sanitized column, the cell of
the original column it maps to. -/
def sheetRowValues (rows : List Row) (row : Row) : List String :=
  (sheetCols rows).map
    (fun c => cellValue row ((recLookup (sheetColMapping rows) c).getD ""))

/-- The table created and loaded for one non-empty sheet. -/
def sheetTable (sheetName : String) (rows : List Row) : Table :=
  ⟨createTableName sheetName,
   (sheetCols rows).map (fun c => (c, "TEXT")),
   rows.map (sheetRowValues rows)⟩

/-- One iteration of the sheet loop of `processExcelFile`: an empty
sheet is skipped, a non-empty sheet records its sanitized columns in
`tableColumnMappings` and drops/creates/loads its table. -/
def processOneSheet (st : Database × List (String × List String))
    (sheet : String × List Row) : Database × List (String × List String) :=
  if sheet.2.isEmpty then st
  else
    (createTable (dropTableIfExists st.1 (createTableName sheet.1))
       (sheetTable sheet.1 sheet.2),
     recInsert (createTableName sheet.1) (sheetCols sheet.2) st.2)

/-- The whole sheet loop, starting from the freshly created (empty)
database file, on which the pre-flight cleanup of unrelated tables
removes nothing. -/
def loadSheets (wb : Workbook) : Database × List (String × List String) :=
  wb.sheets.foldl processOneSheet (⟨[]⟩, [])

/-- Entry of `metadata.sheets`. -/
structure SheetInfo where
  table : String
  original_name : String
deriving DecidableEq

/-- The metadata JSON document emitted by `processExcelFile`. -/
structure ExcelMetadata where
  workbook_id : String
  file_id : String
  sheets : List SheetInfo
  table_schemas : List (String × String)

/-- Return value of `processExcelFile`. -/
structure ProcessedExcelResult where
  sha : String
  dbFile : Database
  metadata : ExcelMetadata
  sheetsProcessed : Nat
  tableColumnMappings : List (String × List String)

/-- The second loop of `processExcelFile`, generating a schema
description for every non-empty sheet; the collaborator call of
`generateTableSchema` is abstracted as the function `schemaGen`. -/
def buildTableSchemas (schemaGen : String → List Row → List String → String)
    (tcm : List (String × List String)) (wb : Workbook) :
    List (String × String) :=
  wb.sheets.foldl
    (fun ts sheet =>
      if 0 < sheet.2.length then
        recInsert (createTableName sheet.1)
          (schemaGen (createTableName sheet.1) sheet.2
            ((recLookup tcm (createTableName sheet.1)).getD []))
          ts
      else ts)
    []

/-- `processExcelFile` from `processor.ts`: load every non-empty sheet,
hard-fail when the resulting table count differs from the total sheet
count, then emit the metadata document.  `sha` is the hash derived from
the file id, `schemaGen` the schema-description collaborator.  The
durability (commit/checkpoint/close) steps have no effect on the
modelled state and are omitted. -/
def processExcelFile (schemaGen : String → List Row → List String → String)
    (sha fileId : String) (wb : Workbook) :
    Except String ProcessedExcelResult :=
  let expectedTables := wb.sheets.length
  let loaded := loadSheets wb
  let tableCount := loaded.1.tables.length
  if tableCount ≠ expectedTables then
    Except.error ("Table count mismatch: Created " ++ toString tableCount ++
      " tables but expected " ++ toString expectedTables ++ " (one per sheet)")
  else
    Except.ok
      { sha := sha
        dbFile := loaded.1
        metadata :=
          { workbook_id := sha
            file_id := fileId
            sheets := wb.sheets.map
              (fun sheet => ⟨createTableName sheet.1, sheet.1⟩)
            table_schemas := buildTableSchemas schemaGen loaded.2 wb }
        sheetsProcessed := wb.sheets.length
        tableColumnMappings := loaded.2 }

/-- Number of sheets with at least one parsed row. -/
def countNonEmpty (wb : Workbook) : Nat :=
  (wb.sheets.filter (fun sheet => !sheet.2.isEmpty)).length

theorem processOneSheet_empty {st : Database × List (String × List String)}
    {sheet : String × List Row} (h : sheet.2.isEmpty = true) :
    processOneSheet st sheet = st := by
  simp [processOneSheet, h]

theorem processOneSheet_nonempty {st : Database × List (String × List String)}
    {sheet : String × List Row} (h : sheet.2.isEmpty = false) :
    processOneSheet st sheet =
      (createTable (dropTableIfExists st.1 (createTableName sheet.1))
         (sheetTable sheet.1 sheet.2),
       recInsert (createTableName sheet.1) (sheetCols sheet.2) st.2) := by
  simp [processOneSheet, h]

theorem foldl_tables_len_le (l : List (String × List Row)) :
    ∀ st : Database × List (String × List String),
    (l.foldl processOneSheet st).1.tables.length ≤
      st.1.tables.length + (l.filter (fun s => !s.2.isEmpty)).length := by
  induction l with
  | nil => intro st; simp
  | cons s rest ih =>
    intro st
    rw [List.foldl_cons, List.filter_cons]
    by_cases hs : s.2.isEmpty
    · rw [processOneSheet_empty hs]
      simp only [hs, Bool.not_true, Bool.false_eq_true, if_false]
      exact ih st
    · rw [processOneSheet_nonempty (by simpa using hs)]
      have hrec := ih (createTable
        (dropTableIfExists st.1 (createTableName s.1)) (sheetTable s.1 s.2),
        recInsert (createTableName s.1) (sheetCols s.2) st.2)
      have hdrop : (dropTableIfExists st.1 (createTableName s.1)).tables.length ≤
          st.1.tables.length := List.length_filter_le _ _
      have hcreate : (createTable
          (dropTableIfExists st.1 (createTableName s.1))
          (sheetTable s.1 s.2)).tables.length =
          (dropTableIfExists st.1 (createTableName s.1)).tables.length + 1 := by
        simp [createTable]
      have hpair : ((createTable
          (dropTableIfExists st.1 (createTableName s.1)) (sheetTable s.1 s.2),
          recInsert (createTableName s.1) (sheetCols s.2) st.2) :
            Database × List (String × List String)).1.tables.length =
          (createTable (dropTableIfExists st.1 (createTableName s.1))
            (sheetTable s.1 s.2)).tables.length := rfl
      simp only [hs, Bool.not_false, if_true, List.length_cons]
      omega

theorem foldl_tables_mem (l : List (String × List Row)) :
    ∀ (st : Database × List (String × List String)) (name : String),
    (∃ t ∈ (l.foldl processOneSheet st).1.tables, t.name = name) ↔
    ((∃ t ∈ st.1.tables, t.name = name) ∨
     (∃ s ∈ l, s.2.isEmpty = false ∧ createTableName s.1 = name)) := by
  induction l with
  | nil => intro st name; simp
  | cons s rest ih =>
    intro st name
    rw [List.foldl_cons]
    by_cases hs : s.2.isEmpty
    · rw [processOneSheet_empty hs, ih st name]
      constructor
      · rintro (h | ⟨s2, hs2, h1, h2⟩)
        · exact Or.inl h
        · exact Or.inr ⟨s2, List.mem_cons_of_mem _ hs2, h1, h2⟩
      · rintro (h | ⟨s2, hs2, h1, h2⟩)
        · exact Or.inl h
        · rcases List.mem_cons.mp hs2 with rfl | hmem
          · rw [hs] at h1; simp at h1
          · exact Or.inr ⟨s2, hmem, h1, h2⟩
    · rw [processOneSheet_nonempty (by simpa using hs), ih _ name]
      have hmemSplit : (∃ t ∈ (createTable
          (dropTableIfExists st.1 (createTableName s.1))
          (sheetTable s.1 s.2)).tables, t.name = name) ↔
          (createTableName s.1 = name ∨
            ∃ t ∈ st.1.tables, t.name = name) := by
        constructor
        · rintro ⟨t, ht, hn⟩
          rcases List.mem_append.mp ht with hf | hone
          · exact Or.inr ⟨t, (List.mem_filter.mp hf).1, hn⟩
          · have : t = sheetTable s.1 s.2 := by simpa using hone
            subst this
            exact Or.inl hn
        · rintro (hn | ⟨t, ht, hn⟩)
          · exact ⟨sheetTable s.1 s.2,
              List.mem_append.mpr (Or.inr (by simp)), hn⟩
          · by_cases hne : t.name = createTableName s.1
            · refine ⟨sheetTable s.1 s.2,
                List.mem_append.mpr (Or.inr (by simp)), ?_⟩
              rw [← hn, hne]
              rfl
            · exact ⟨t, List.mem_append.mpr (Or.inl
                (List.mem_filter.mpr ⟨ht, by simp [hne]⟩)), hn⟩
      rw [hmemSplit]
      constructor
      · rintro ((hn | h) | ⟨s2, hs2, h1, h2⟩)
        · exact Or.inr ⟨s, List.mem_cons_self s rest, by simpa using hs, hn⟩
        · exact Or.inl h
        · exact Or.inr ⟨s2, List.mem_cons_of_mem _ hs2, h1, h2⟩
      · rintro (h | ⟨s2, hs2, h1, h2⟩)
        · exact Or.inl (Or.inr h)
        · rcases List.mem_cons.mp hs2 with rfl | hmem
          · exact Or.inl (Or.inl h2)
          · exact Or.inr ⟨s2, hmem, h1, h2⟩

theorem mem_recKeys_recInsert {α : Type} {k : String} {v : α}
    {r : List (String × α)} {x : String} :
    x ∈ recKeys (recInsert k v r) ↔ x = k ∨ x ∈ recKeys r := by
  induction r with
  | nil => simp [recInsert, recKeys]
  | cons p rest ih =>
    by_cases hp : p.1 = k
    · simp only [recInsert, if_pos hp, recKeys, List.map_cons, List.mem_cons]
      rw [hp]
      tauto
    · simp only [recInsert, if_neg hp, recKeys, List.map_cons, List.mem_cons]
      simp only [recKeys] at ih
      rw [ih]
      tauto

theorem mem_keys_buildTableSchemas
    (schemaGen : String → List Row → List String → String)
    (tcm : List (String × List String)) (wb : Workbook) (name : String) :
    name ∈ recKeys (buildTableSchemas schemaGen tcm wb) ↔
    ∃ s ∈ wb.sheets, 0 < s.2.length ∧ createTableName s.1 = name := by
  have hgen : ∀ (l : List (String × List Row)) (ts : List (String × String)),
      name ∈ recKeys (l.foldl (fun ts sheet =>
        if 0 < sheet.2.length then
          recInsert (createTableName sheet.1)
            (schemaGen (createTableName sheet.1) sheet.2
              ((recLookup tcm (createTableName sheet.1)).getD []))
            ts
        else ts) ts) ↔
      (name ∈ recKeys ts ∨
        ∃ s ∈ l, 0 < s.2.length ∧ createTableName s.1 = name) := by
    intro l
    induction l with
    | nil => intro ts; simp
    | cons s rest ih =>
      intro ts
      rw [List.foldl_cons]
      by_cases hlen : 0 < s.2.length
      · rw [if_pos hlen, ih]
        rw [mem_recKeys_recInsert]
        constructor
        · rintro ((h | h) | ⟨s2, hs2, h1, h2⟩)
          · exact Or.inr ⟨s, List.mem_cons_self s rest, hlen, h.symm⟩
          · exact Or.inl h
          · exact Or.inr ⟨s2, List.mem_cons_of_mem _ hs2, h1, h2⟩
        · rintro (h | ⟨s2, hs2, h1, h2⟩)
          · exact Or.inl (Or.inr h)
          · rcases List.mem_cons.mp hs2 with rfl | hmem
            · exact Or.inl (Or.inl h2.symm)
            · exact Or.inr ⟨s2, hmem, h1, h2⟩
      · rw [if_neg hlen, ih]
        constructor
        · rintro (h | ⟨s2, hs2, h1, h2⟩)
          · exact Or.inl h
          · exact Or.inr ⟨s2, List.mem_cons_of_mem _ hs2, h1, h2⟩
        · rintro (h | ⟨s2, hs2, h1, h2⟩)
          · exact Or.inl h
          · rcases List.mem_cons.mp hs2 with rfl | hmem
            · exact absurd h1 hlen
            · exact Or.inr ⟨s2, hmem, h1, h2⟩
  rw [show buildTableSchemas schemaGen tcm wb = wb.sheets.foldl
    (fun ts sheet =>
      if 0 < sheet.2.length then
        recInsert (createTableName sheet.1)
          (schemaGen (createTableName sheet.1) sheet.2
            ((recLookup tcm (createTableName sheet.1)).getD []))
          ts
      else ts) [] from rfl]
  rw [hgen wb.sheets []]
  simp [recKeys]

/-! ### Concrete fixtures used by witnesses and counterexamples -/

/-- Deterministic stand-in for the schema-description collaborator. -/
def schemaGenStub : String → List Row → List String → String :=
  fun t _ _ => t

/-- Three sheets, the middle one with zero data rows. -/
def workbookWithEmptySheet : Workbook :=
  ⟨[("A", [[("x", some "1")]]), ("B", []), ("C", [[("x", some "2")]])]⟩

/-- Two sheets, both non-empty. -/
def workbookAllNonEmpty : Workbook :=
  ⟨[("A", [[("x", some "1")]]), ("C", [[("x", some "2")]])]⟩

/-- Two non-empty sheets whose names collide after slugification: both
become `sheet_a_b`. -/
def workbookColliding : Workbook :=
  ⟨[("A B", [[("x", some "1")]]), ("A_B", [[("x", some "2")]])]⟩

/-- The round-trip fixture of the spec: one sheet with headers
`"Name"` and `"2024 Revenue"`. -/
def roundTripWorkbook : Workbook :=
  ⟨[("Data", [[("Name", some "Acme"), ("2024 Revenue", some "100")]])]⟩

/-! ### Claim C2: table-count invariant -/

/-- C2: after loading, a table count different from the number of
non-empty sheets makes ingestion raise an error instead of returning,
and a successful return implies the table count equals the non-empty
sheet count.  (The source compares against the total sheet count, but
the loaded table count never exceeds the non-empty sheet count, so both
directions of the claim follow.) -/
theorem C2_table_count_invariant
    (schemaGen : String → List Row → List String → String)
    (sha fileId : String) (wb : Workbook) :
    ((loadSheets wb).1.tables.length ≠ countNonEmpty wb →
      (processExcelFile schemaGen sha fileId wb).isOk = false) ∧
    (∀ r, processExcelFile schemaGen sha fileId wb = Except.ok r →
      r.dbFile.tables.length = countNonEmpty wb) := by
  have hle : (loadSheets wb).1.tables.length ≤ countNonEmpty wb := by
    have h := foldl_tables_len_le wb.sheets (⟨[]⟩, [])
    simpa [loadSheets, countNonEmpty] using h
  have hle2 : countNonEmpty wb ≤ wb.sheets.length :=
    List.length_filter_le _ _
  constructor
  · intro hne
    have hcond : (loadSheets wb).1.tables.length ≠ wb.sheets.length := by
      omega
    simp [processExcelFile, hcond, Except.isOk, Except.toBool]
  · intro r hok
    by_cases hcond : (loadSheets wb).1.tables.length ≠ wb.sheets.length
    · simp [processExcelFile, hcond] at hok
    · simp [processExcelFile, hcond] at hok
      rw [← hok]
      simp only []
      omega

/-- C2 witness: a workbook whose two non-empty sheet names collide into
one table name loads one table against two non-empty sheets, and
ingestion fails. -/
theorem C2_table_count_invariant_witness :
    (loadSheets workbookColliding).1.tables.length ≠
      countNonEmpty workbookColliding ∧
    (processExcelFile schemaGenStub "a1b2" "file-1"
      workbookColliding).isOk = false :=
  ⟨by decide,
   (C2_table_count_invariant schemaGenStub "a1b2" "file-1"
     workbookColliding).1 (by decide)⟩

/-! ### Claim C1: empty-sheet handling -/

/-- C1 counterexample: on a workbook with 3 sheets of which 1 is empty,
ingestion does not return successfully with 2 tables — it raises the
table-count error, because the check compares against the total sheet
count. -/
theorem C1_counterexample :
    countNonEmpty workbookWithEmptySheet = 2 ∧
    (processExcelFile schemaGenStub "abc123def456" "file-1"
      workbookWithEmptySheet).isOk = false := by
  decide

/-- C1 (amended): an empty sheet is loaded into no table (the tables of
the database file are exactly those of the non-empty sheets) and has no
entry in `table_schemas`; but any workbook containing an empty sheet
fails ingestion with the table-count error rather than returning, the
metadata `sheets` list still includes every sheet (empty ones included),
and when ingestion does return successfully `sheetsProcessed` equals the
total sheet count, which then coincides with the non-empty count. -/
theorem C1_empty_sheet_exclusion
    (schemaGen : String → List Row → List String → String)
    (sha fileId : String) (wb : Workbook) :
    (∀ name, (∃ t ∈ (loadSheets wb).1.tables, t.name = name) ↔
      ∃ s ∈ wb.sheets, s.2.isEmpty = false ∧ createTableName s.1 = name) ∧
    ((∃ s ∈ wb.sheets, s.2.isEmpty = true) →
      (processExcelFile schemaGen sha fileId wb).isOk = false) ∧
    (∀ r, processExcelFile schemaGen sha fileId wb = Except.ok r →
      (∀ name, name ∈ recKeys r.metadata.table_schemas ↔
        ∃ s ∈ wb.sheets, 0 < s.2.length ∧ createTableName s.1 = name) ∧
      r.metadata.sheets =
        wb.sheets.map (fun s => ⟨createTableName s.1, s.1⟩) ∧
      r.sheetsProcessed = wb.sheets.length ∧
      countNonEmpty wb = wb.sheets.length) := by
  have hle : (loadSheets wb).1.tables.length ≤ countNonEmpty wb := by
    have h := foldl_tables_len_le wb.sheets (⟨[]⟩, [])
    simpa [loadSheets, countNonEmpty] using h
  have hle2 : countNonEmpty wb ≤ wb.sheets.length :=
    List.length_filter_le _ _
  refine ⟨?_, ?_, ?_⟩
  · intro name
    have h := foldl_tables_mem wb.sheets (⟨[]⟩, []) name
    simpa [loadSheets] using h
  · intro ⟨s, hs, hempty⟩
    have hlt : countNonEmpty wb < wb.sheets.length := by
      apply List.length_filter_lt_length_iff_exists.mpr
      exact ⟨s, hs, by simp [hempty]⟩
    have hcond : (loadSheets wb).1.tables.length ≠ wb.sheets.length := by
      omega
    simp [processExcelFile, hcond, Except.isOk, Except.toBool]
  · intro r hok
    by_cases hcond : (loadSheets wb).1.tables.length ≠ wb.sheets.length
    · simp [processExcelFile, hcond] at hok
    · simp [processExcelFile, hcond] at hok
      refine ⟨?_, ?_, ?_, ?_⟩
      · intro name
        rw [← hok]
        exact mem_keys_buildTableSchemas schemaGen (loadSheets wb).2 wb name
      · rw [← hok]
      · rw [← hok]
      · omega

/-- C1 witness: the amended failure branch fires on the concrete 3-sheet
workbook with one empty sheet. -/
theorem C1_empty_sheet_exclusion_witness :
    (∃ s ∈ workbookWithEmptySheet.sheets, s.2.isEmpty = true) ∧
    (processExcelFile schemaGenStub "abc123def456" "file-1"
      workbookWithEmptySheet).isOk = false :=
  ⟨by decide,
   (C1_empty_sheet_exclusion schemaGenStub "abc123def456" "file-1"
     workbookWithEmptySheet).2.1 (by decide)⟩

/-! ### Claim C5: determinism and idempotence -/

/-- C5 counterexample: `buildTableName` is not idempotent — applying it
twice to `"a"` prepends the prefix again. -/
theorem C5_counterexample :
    createTableName (createTableName "a") ≠ createTableName "a" := by
  decide

/-- C5 (amended): `sanitize` is pure and idempotent for every input;
`buildTableName` is pure but never idempotent: a second application
prepends the `sheet_` prefix again, so the result always differs. -/
theorem C5_sanitize_idempotent :
    (∀ s, sanitizeColumnName (sanitizeColumnName s) = sanitizeColumnName s) ∧
    (∀ s, createTableName (createTableName s) ≠ createTableName s) :=
  ⟨sanitizeColumnName_idem, createTableName_not_idem⟩

/-! ### Claim C6: slug safety and round-trip schema -/

/-- C6 counterexample: an input consisting solely of punctuation
sanitizes to the empty string, which does not match
`^[a-z_][a-z0-9_]*$`. -/
theorem C6_counterexample :
    sanitizeColumnName "!" = "" ∧ matchesSlugPattern "" = false := by
  decide

/-- C6 (amended): every sanitized output is either empty (inputs with no
alphanumeric content) or matches `^[a-z_][a-z0-9_]*$`; and the sheet
with headers `["Name", "2024 Revenue"]` yields sanitized columns
`["name", "col_2024_revenue"]` and a table with exactly those two
`TEXT` columns in that order. -/
theorem C6_slug_safety :
    (∀ s, sanitizeColumnName s = "" ∨
      matchesSlugPattern (sanitizeColumnName s) = true) ∧
    sanitizeColumnName "Name" = "name" ∧
    sanitizeColumnName "2024 Revenue" = "col_2024_revenue" ∧
    (loadSheets roundTripWorkbook).1.tables.map (fun t => (t.name, t.cols)) =
      [("sheet_data", [("name", "TEXT"), ("col_2024_revenue", "TEXT")])] :=
  ⟨sanitize_pattern, by decide, by decide, by decide⟩

/-! ### Claim C3: SQL guard -/

theorem guard_op_equiv (s : String) : ∀ op ∈ dangerousOperations,
    jsStartsWith (jsToLower s) op = beginsWithCaseInsensitive op s := by
  intro op hop
  fin_cases hop <;>
    exact congrArg (fun l => isPrefixList l (s.data.map jsToLowerChar))
      (by decide)

/-- C3: the guard rejects exactly the statements whose trimmed text
begins case-insensitively with one of the six mutating verbs; in
particular the two mutating examples are rejected and the `SELECT`
statement is accepted. -/
theorem C3_sql_guard :
    (∀ q : String, (validateSqlQuery q).isOk = false ↔
      ∃ op ∈ dangerousOperations,
        beginsWithCaseInsensitive op (jsTrim q) = true) ∧
    (validateSqlQuery "DROP TABLE x").isOk = false ∧
    (validateSqlQuery "  insert into x values(1)").isOk = false ∧
    (validateSqlQuery "SELECT * FROM source_db.sheet_foo").isOk = true := by
  refine ⟨?_, by decide, by decide, by decide⟩
  intro q
  have hany : (dangerousOperations.any
      (fun op => jsStartsWith (jsToLower (jsTrim q)) op)) =
      (dangerousOperations.any
        (fun op => beginsWithCaseInsensitive op (jsTrim q))) := by
    have h1 := guard_op_equiv (jsTrim q) "delete" (by decide)
    have h2 := guard_op_equiv (jsTrim q) "drop" (by decide)
    have h3 := guard_op_equiv (jsTrim q) "alter" (by decide)
    have h4 := guard_op_equiv (jsTrim q) "create" (by decide)
    have h5 := guard_op_equiv (jsTrim q) "insert" (by decide)
    have h6 := guard_op_equiv (jsTrim q) "update" (by decide)
    simp only [dangerousOperations, List.any_cons, List.any_nil,
      h1, h2, h3, h4, h5, h6]
  constructor
  · intro hrej
    by_cases hcond : (dangerousOperations.any
        (fun op => jsStartsWith (jsToLower (jsTrim q)) op)) = true
    · rw [hany] at hcond
      exact List.any_eq_true.mp hcond
    · simp [validateSqlQuery, hcond, Except.isOk, Except.toBool] at hrej
  · intro hex
    have hcond : (dangerousOperations.any
        (fun op => jsStartsWith (jsToLower (jsTrim q)) op)) = true := by
      rw [hany]
      exact List.any_eq_true.mpr hex
    simp [validateSqlQuery, hcond, Except.isOk, Except.toBool]

/-! ### Database validation (`validateDatabase`, `validator.ts`)

The pure diff core: the storage download and `ATTACH` of the database
file are the IO shell; the attached file is the `Database` value
produced by ingestion.  The `ORDER BY name` of the table enumeration
only affects the order of extra-table warnings and is not modelled; the
`database_error` catch-all of the IO shell cannot occur in the pure
diff. -/

/-- `ValidationSchema` from `validator.ts`. -/
structure ValidationSchema where
  expectedTables : List String
  expectedColumns : List (String × List String)
  expectedDataTypes : List (String × List (String × String))

/-- The error variants produced by the diff (`database_error` belongs to
the IO shell). -/
inductive ValidationError
  | missing_table (table : String)
  | missing_column (table column : String)
  | wrong_data_type (table column expected actual : String)
deriving DecidableEq

/-- The warning variants produced by the diff (`unexpected_data_type` is
declared in the source but never constructed). -/
inductive ValidationWarning
  | extra_table (table : String)
  | extra_column (table column : String)
deriving DecidableEq

/-- `ValidationResult`: success flag, errors, warnings and the
`(tablesValidated, columnsValidated, dataTypesValidated)` summary. -/
structure ValidationResult where
  success : Bool
  errors : List ValidationError
  warnings : List ValidationWarning
  summary : Nat × Nat × Nat

/-- The `actualColumnMap` of `validateDatabase`: a JS `Map` built with
`set` over the table's `(column_name, data_type)` rows. -/
def actualColMap (tbl : Table) : List (String × String) :=
  tbl.cols.foldl (fun m p => recInsert p.1 p.2 m) []

/-- The per-expected-table section of the validation loop: a missing
table contributes nothing (`continue`; it was already reported), a
present table contributes missing-column errors, extra-column warnings,
wrong-type errors, and the two validated counts. -/
def perTableDiff (db : Database) (sch : ValidationSchema)
    (tableName : String) :
    List ValidationError × List ValidationWarning × Nat × Nat :=
  match db.tables.find? (fun tb => tb.name == tableName) with
  | none => ([], [], 0, 0)
  | some tbl =>
    let cmap := actualColMap tbl
    let expectedColumns := (recLookup sch.expectedColumns tableName).getD []
    let missingCols := (expectedColumns.filter
      (fun c => (recLookup cmap c).isNone)).map
        (fun c => ValidationError.missing_column tableName c)
    let colsValidated := (expectedColumns.filter
      (fun c => (recLookup cmap c).isSome)).length
    let extraCols := ((recKeys cmap).filter
      (fun c => !(expectedColumns.contains c))).map
        (fun c => ValidationWarning.extra_column tableName c)
    let expectedTypes := (recLookup sch.expectedDataTypes tableName).getD []
    let typeErrors := expectedTypes.filterMap (fun p =>
      match recLookup cmap p.1 with
      | some actual =>
        if actual ≠ p.2 then
          some (ValidationError.wrong_data_type tableName p.1 p.2 actual)
        else none
      | none => none)
    let typesValidated := (expectedTypes.filter
      (fun p => recLookup cmap p.1 = some p.2)).length
    (missingCols ++ typeErrors, extraCols, colsValidated, typesValidated)

/-- The names of the tables actually present in the database file. -/
def actualTableNames (db : Database) : List String :=
  db.tables.map (fun tb => tb.name)

/-- Error list of `validateDatabase`: the missing-table errors of the
first loop followed by the per-table sections in expected-table order. -/
def validationErrors (sch : ValidationSchema) (db : Database) :
    List ValidationError :=
  (sch.expectedTables.filter
    (fun t => !((actualTableNames db).contains t))).map
      ValidationError.missing_table ++
  (sch.expectedTables.map (perTableDiff db sch)).flatMap (fun r => r.1)

/-- Warning list of `validateDatabase`: extra-table warnings followed by
the per-table extra-column warnings. -/
def validationWarnings (sch : ValidationSchema) (db : Database) :
    List ValidationWarning :=
  ((actualTableNames db).filter
    (fun t => !(sch.expectedTables.contains t))).map
      ValidationWarning.extra_table ++
  (sch.expectedTables.map (perTableDiff db sch)).flatMap (fun r => r.2.1)

/-- `validateDatabase` from `validator.ts` (pure diff): the success flag
starts true and is cleared exactly by error pushes, so it equals
emptiness of the error list. -/
def validateDatabase (sch : ValidationSchema) (db : Database) :
    ValidationResult :=
  { success := (validationErrors sch db).isEmpty
    errors := validationErrors sch db
    warnings := validationWarnings sch db
    summary := ((sch.expectedTables.filter
        (fun t => (actualTableNames db).contains t)).length,
      ((sch.expectedTables.map (perTableDiff db sch)).map
        (fun r => r.2.2.1)).sum,
      ((sch.expectedTables.map (perTableDiff db sch)).map
        (fun r => r.2.2.2)).sum) }

/-- Spec-side predicate `success` should equal: every expected table is
present, every expected column of a present table is present, and every
expected data type with a present column matches. -/
def schemaSatisfied (sch : ValidationSchema) (db : Database) : Bool :=
  sch.expectedTables.all (fun tableName =>
    match db.tables.find? (fun tb => tb.name == tableName) with
    | none => false
    | some tbl =>
      let cmap := actualColMap tbl
      (((recLookup sch.expectedColumns tableName).getD []).all
        (fun c => (recLookup cmap c).isSome)) &&
      (((recLookup sch.expectedDataTypes tableName).getD []).all
        (fun p =>
          match recLookup cmap p.1 with
          | some actual => actual == p.2
          | none => true)))

theorem find_of_contains {db : Database} {t : String}
    (h : (actualTableNames db).contains t = true) :
    ∃ tbl, db.tables.find? (fun tb => tb.name == t) = some tbl := by
  have hmem : t ∈ actualTableNames db := by simpa using h
  obtain ⟨tbl, htbl, hname⟩ := List.mem_map.mp hmem
  have hsome : (db.tables.find? (fun tb => tb.name == t)).isSome :=
    List.find?_isSome.mpr ⟨tbl, htbl, by simp [hname]⟩
  exact Option.isSome_iff_exists.mp hsome

theorem contains_of_find {db : Database} {t : String} {tbl : Table}
    (h : db.tables.find? (fun tb => tb.name == t) = some tbl) :
    (actualTableNames db).contains t = true := by
  have hmem : tbl ∈ db.tables := List.mem_of_find?_eq_some h
  have hname : tbl.name = t := by
    have := List.find?_some h
    simpa using this
  have hmem : t ∈ actualTableNames db :=
    List.mem_map.mpr ⟨tbl, hmem, hname⟩
  simpa using hmem

theorem col_elem_iff (o : Option String) :
    (¬ o.isNone = true) ↔ o.isSome = true := by
  cases o <;> simp

theorem type_elem_iff (o : Option String) (e tn cn : String) :
    ((match o with
      | some actual =>
        if actual ≠ e then
          some (ValidationError.wrong_data_type tn cn e actual)
        else none
      | none => none) = none) ↔
    ((match o with
      | some actual => actual == e
      | none => true) = true) := by
  cases o with
  | none => simp
  | some a => by_cases ha : a = e <;> simp [ha]

theorem perTableDiff_errors_nil_iff {db : Database} {sch : ValidationSchema}
    {tableName : String} {tbl : Table}
    (h : db.tables.find? (fun tb => tb.name == tableName) = some tbl) :
    (perTableDiff db sch tableName).1 = [] ↔
    ((((recLookup sch.expectedColumns tableName).getD []).all
        (fun c => (recLookup (actualColMap tbl) c).isSome)) = true ∧
     (((recLookup sch.expectedDataTypes tableName).getD []).all
        (fun p =>
          match recLookup (actualColMap tbl) p.1 with
          | some actual => actual == p.2
          | none => true)) = true) := by
  unfold perTableDiff
  rw [h]
  simp only [List.append_eq_nil, List.map_eq_nil_iff, List.filter_eq_nil_iff,
    List.filterMap_eq_nil_iff, List.all_eq_true]
  exact and_congr
    (forall_congr' fun c => forall_congr' fun hc => col_elem_iff _)
    (forall_congr' fun p => forall_congr' fun hp =>
      type_elem_iff (recLookup (actualColMap tbl) p.1) p.2 tableName p.1)

theorem validationErrors_nil_iff (sch : ValidationSchema) (db : Database) :
    validationErrors sch db = [] ↔ schemaSatisfied sch db = true := by
  unfold validationErrors schemaSatisfied
  rw [List.append_eq_nil, List.map_eq_nil_iff, List.filter_eq_nil_iff,
    List.flatMap_eq_nil_iff, List.all_eq_true]
  constructor
  · rintro ⟨hmiss, hper⟩ t ht
    have hc : (actualTableNames db).contains t = true := by
      have h := hmiss t ht
      simpa using h
    obtain ⟨tbl, htbl⟩ := find_of_contains hc
    rw [htbl]
    have hp : (perTableDiff db sch t).1 = [] :=
      hper _ (List.mem_map_of_mem _ ht)
    have hres := (perTableDiff_errors_nil_iff htbl).mp hp
    simp only []
    rw [hres.1, hres.2]
    rfl
  · intro hall
    constructor
    · intro t ht
      have h := hall t ht
      cases hf : db.tables.find? (fun tb => tb.name == t) with
      | none =>
        rw [hf] at h
        simp at h
      | some tbl =>
        have hc := contains_of_find hf
        simpa using hc
    · intro r hr
      obtain ⟨t, ht, rfl⟩ := List.mem_map.mp hr
      have h := hall t ht
      cases hf : db.tables.find? (fun tb => tb.name == t) with
      | none =>
        rw [hf] at h
        simp at h
      | some tbl =>
        rw [hf] at h
        simp only [Bool.and_eq_true] at h
        exact (perTableDiff_errors_nil_iff hf).mpr h

/-- C8: missing expected tables, missing expected columns and data-type
mismatches are reported as errors and clear the success flag (which
equals the spec-side satisfaction predicate, so it ignores extras),
whereas tables and columns present in the database but not expected are
reported only as warnings. -/
theorem C8_validation_asymmetry (sch : ValidationSchema) (db : Database) :
    ((validateDatabase sch db).success = schemaSatisfied sch db) ∧
    (∀ t, t ∈ sch.expectedTables →
      (actualTableNames db).contains t = false →
      ValidationError.missing_table t ∈ (validateDatabase sch db).errors ∧
      (validateDatabase sch db).success = false) ∧
    (∀ t tbl c, t ∈ sch.expectedTables →
      db.tables.find? (fun tb => tb.name == t) = some tbl →
      c ∈ (recLookup sch.expectedColumns t).getD [] →
      recLookup (actualColMap tbl) c = none →
      ValidationError.missing_column t c ∈ (validateDatabase sch db).errors ∧
      (validateDatabase sch db).success = false) ∧
    (∀ t tbl c e a, t ∈ sch.expectedTables →
      db.tables.find? (fun tb => tb.name == t) = some tbl →
      (c, e) ∈ (recLookup sch.expectedDataTypes t).getD [] →
      recLookup (actualColMap tbl) c = some a → a ≠ e →
      ValidationError.wrong_data_type t c e a ∈
        (validateDatabase sch db).errors ∧
      (validateDatabase sch db).success = false) ∧
    (∀ t, t ∈ actualTableNames db → t ∉ sch.expectedTables →
      ValidationWarning.extra_table t ∈ (validateDatabase sch db).warnings) ∧
    (∀ t tbl c, t ∈ sch.expectedTables →
      db.tables.find? (fun tb => tb.name == t) = some tbl →
      c ∈ recKeys (actualColMap tbl) →
      c ∉ (recLookup sch.expectedColumns t).getD [] →
      ValidationWarning.extra_column t c ∈
        (validateDatabase sch db).warnings) := by
  have hfalse : ∀ e, e ∈ validationErrors sch db →
      (validateDatabase sch db).success = false := by
    intro e he
    show (validationErrors sch db).isEmpty = false
    cases hv : validationErrors sch db with
    | nil =>
      rw [hv] at he
      simp at he
    | cons x xs => rfl
  have hsuc : (validateDatabase sch db).success = schemaSatisfied sch db := by
    show (validationErrors sch db).isEmpty = schemaSatisfied sch db
    cases h : schemaSatisfied sch db with
    | false =>
      have hne : validationErrors sch db ≠ [] := by
        intro hnil
        have h2 := (validationErrors_nil_iff sch db).mp hnil
        rw [h] at h2
        exact Bool.false_ne_true h2
      cases hv : validationErrors sch db with
      | nil => exact absurd hv hne
      | cons x xs => rfl
    | true =>
      rw [(validationErrors_nil_iff sch db).mpr h]
      rfl
  refine ⟨hsuc, ?_, ?_, ?_, ?_, ?_⟩
  · intro t ht hc
    have hmem : ValidationError.missing_table t ∈ validationErrors sch db := by
      unfold validationErrors
      apply List.mem_append.mpr
      left
      exact List.mem_map.mpr
        ⟨t, List.mem_filter.mpr ⟨ht, by rw [hc]; rfl⟩, rfl⟩
    exact ⟨hmem, hfalse _ hmem⟩
  · intro t tbl c ht hf hcmem hnone
    have hper : ValidationError.missing_column t c ∈
        (perTableDiff db sch t).1 := by
      unfold perTableDiff
      rw [hf]
      simp only []
      apply List.mem_append.mpr
      left
      exact List.mem_map.mpr
        ⟨c, List.mem_filter.mpr ⟨hcmem, by simp [hnone]⟩, rfl⟩
    have hmem : ValidationError.missing_column t c ∈
        validationErrors sch db := by
      unfold validationErrors
      apply List.mem_append.mpr
      right
      exact List.mem_flatMap.mpr
        ⟨perTableDiff db sch t, List.mem_map_of_mem _ ht, hper⟩
    exact ⟨hmem, hfalse _ hmem⟩
  · intro t tbl c e a ht hf htype hlk hne
    have hper : ValidationError.wrong_data_type t c e a ∈
        (perTableDiff db sch t).1 := by
      unfold perTableDiff
      rw [hf]
      simp only []
      apply List.mem_append.mpr
      right
      apply List.mem_filterMap.mpr
      refine ⟨(c, e), htype, ?_⟩
      simp only [hlk]
      rw [if_pos hne]
    have hmem : ValidationError.wrong_data_type t c e a ∈
        validationErrors sch db := by
      unfold validationErrors
      apply List.mem_append.mpr
      right
      exact List.mem_flatMap.mpr
        ⟨perTableDiff db sch t, List.mem_map_of_mem _ ht, hper⟩
    exact ⟨hmem, hfalse _ hmem⟩
  · intro t ht hnot
    show ValidationWarning.extra_table t ∈ validationWarnings sch db
    unfold validationWarnings
    apply List.mem_append.mpr
    left
    exact List.mem_map.mpr
      ⟨t, List.mem_filter.mpr ⟨ht, by simp [hnot]⟩, rfl⟩
  · intro t tbl c ht hf hk hnotc
    show ValidationWarning.extra_column t c ∈ validationWarnings sch db
    have hper : ValidationWarning.extra_column t c ∈
        (perTableDiff db sch t).2.1 := by
      unfold perTableDiff
      rw [hf]
      simp only []
      exact List.mem_map.mpr
        ⟨c, List.mem_filter.mpr ⟨hk, by simp [hnotc]⟩, rfl⟩
    unfold validationWarnings
    apply List.mem_append.mpr
    right
    exact List.mem_flatMap.mpr
      ⟨perTableDiff db sch t, List.mem_map_of_mem _ ht, hper⟩

/-- Schema expecting one table `t1` with one `TEXT` column `a`. -/
def schemaOneTable : ValidationSchema :=
  ⟨["t1"], [("t1", ["a"])], [("t1", [("a", "TEXT")])]⟩

/-- Schema additionally expecting a table `tX` that does not exist. -/
def schemaMissingTable : ValidationSchema :=
  ⟨["t1", "tX"], [("t1", ["a"])], [("t1", [("a", "TEXT")])]⟩

/-- Actual database: `t1` as expected plus an unexpected table `t2`. -/
def databaseWithExtra : Database :=
  ⟨[⟨"t1", [("a", "TEXT")], []⟩, ⟨"t2", [("b", "TEXT")], []⟩]⟩

/-- C8 witness: the extra table yields a warning with `success = true`;
the missing expected table yields an error with `success = false`. -/
theorem C8_validation_asymmetry_witness :
    (validateDatabase schemaOneTable databaseWithExtra).success = true ∧
    ValidationWarning.extra_table "t2" ∈
      (validateDatabase schemaOneTable databaseWithExtra).warnings ∧
    ValidationError.missing_table "tX" ∈
      (validateDatabase schemaMissingTable databaseWithExtra).errors ∧
    (validateDatabase schemaMissingTable databaseWithExtra).success = false := by
  refine ⟨?_, ?_, ?_, ?_⟩
  · rw [(C8_validation_asymmetry schemaOneTable databaseWithExtra).1]
    decide
  · exact (C8_validation_asymmetry schemaOneTable databaseWithExtra).2.2.2.2.1
      "t2" (by decide) (by decide)
  · exact ((C8_validation_asymmetry schemaMissingTable
      databaseWithExtra).2.1 "tX" (by decide) (by decide)).1
  · exact ((C8_validation_asymmetry schemaMissingTable
      databaseWithExtra).2.1 "tX" (by decide) (by decide)).2

/-! ### Response streaming (`createResponseStream`, `llm.ts`)

Each chunk is serialised as an SSE `data:` line; the model works at the
`StreamChunk` level.  The narration collaborator (`streamText`) is
modelled by the finite list of text parts it yields. -/

/-- `StreamChunk` from the chat `types.ts`, split by its `type` tag. -/
inductive StreamChunk
  | metadata (sqlQuery : String) (rowCount : Nat) (executionTime : Nat)
  | text (content : String)
  | done
deriving DecidableEq

/-- Discriminator for metadata chunks. -/
def isMetadataChunk : StreamChunk → Bool
  | StreamChunk.metadata _ _ _ => true
  | _ => false

/-- Discriminator for text chunks. -/
def isTextChunk : StreamChunk → Bool
  | StreamChunk.text _ => true
  | _ => false

/-- Discriminator for the terminal chunk. -/
def isDoneChunk : StreamChunk → Bool
  | StreamChunk.done => true
  | _ => false

/-- `createResponseStream` from `llm.ts`: enqueue the initial metadata
chunk (echoing query, row count, execution time), then one text chunk
per collaborator token, then the done chunk, then close. -/
def createResponseStream (sqlQuery : String) (rows : List (List String))
    (executionTime : Nat) (tokens : List String) : List StreamChunk :=
  StreamChunk.metadata sqlQuery rows.length executionTime ::
    (tokens.map StreamChunk.text ++ [StreamChunk.done])

/-- C9: the stream always consists of exactly one metadata chunk (at
position 0, echoing the query, row count and execution time), then all
text chunks (one per collaborator token, at positions 1 to n), then
exactly one done chunk at the last position — also when the collaborator
yields zero tokens. -/
theorem C9_streaming_contract (sqlQuery : String) (rows : List (List String))
    (executionTime : Nat) (tokens : List String) :
    (createResponseStream sqlQuery rows executionTime tokens).length =
      tokens.length + 2 ∧
    (createResponseStream sqlQuery rows executionTime tokens)[0]? =
      some (StreamChunk.metadata sqlQuery rows.length executionTime) ∧
    (∀ i c, (createResponseStream sqlQuery rows executionTime tokens)[i]? =
      some c → isMetadataChunk c = true → i = 0) ∧
    (∀ i c, (createResponseStream sqlQuery rows executionTime tokens)[i]? =
      some c → isTextChunk c = true → 1 ≤ i ∧ i ≤ tokens.length) ∧
    (createResponseStream sqlQuery rows executionTime tokens)[tokens.length + 1]? =
      some StreamChunk.done ∧
    (∀ i c, (createResponseStream sqlQuery rows executionTime tokens)[i]? =
      some c → isDoneChunk c = true → i = tokens.length + 1) := by
  have hget : ∀ i, (createResponseStream sqlQuery rows executionTime tokens)[i + 1]? =
      (tokens.map StreamChunk.text ++ [StreamChunk.done])[i]? := by
    intro i
    simp [createResponseStream]
  have htail : ∀ i c,
      (tokens.map StreamChunk.text ++ [StreamChunk.done])[i]? = some c →
      (i < tokens.length ∧ ∃ s, c = StreamChunk.text s) ∨
      (i = tokens.length ∧ c = StreamChunk.done) := by
    intro i c hc
    by_cases hi : i < tokens.length
    · left
      refine ⟨hi, ?_⟩
      rw [List.getElem?_append_left (by simpa using hi), List.getElem?_map] at hc
      cases ht : tokens[i]? with
      | none =>
        rw [ht] at hc
        simp at hc
      | some s =>
        rw [ht] at hc
        simp at hc
        exact ⟨s, hc.symm⟩
    · right
      have hle : tokens.length ≤ i := Nat.le_of_not_lt hi
      rw [List.getElem?_append_right (by simpa using hle)] at hc
      simp only [List.length_map] at hc
      cases hd : i - tokens.length with
      | zero =>
        rw [hd] at hc
        simp at hc
        exact ⟨by omega, hc.symm⟩
      | succ n =>
        rw [hd] at hc
        simp at hc
  have hzero : (createResponseStream sqlQuery rows executionTime tokens)[0]? =
      some (StreamChunk.metadata sqlQuery rows.length executionTime) := by
    simp [createResponseStream]
  refine ⟨by simp [createResponseStream], hzero, ?_, ?_, ?_, ?_⟩
  · intro i c hc hm
    cases i with
    | zero => rfl
    | succ n =>
      rw [hget n] at hc
      rcases htail n c hc with ⟨_, s, rfl⟩ | ⟨_, rfl⟩ <;>
        simp [isMetadataChunk] at hm
  · intro i c hc ht
    cases i with
    | zero =>
      rw [hzero] at hc
      simp at hc
      rw [← hc] at ht
      simp [isTextChunk] at ht
    | succ n =>
      rw [hget n] at hc
      rcases htail n c hc with ⟨hlt, s, rfl⟩ | ⟨_, rfl⟩
      · omega
      · simp [isTextChunk] at ht
  · rw [hget tokens.length]
    rw [List.getElem?_append_right (by simp)]
    simp
  · intro i c hc hd
    cases i with
    | zero =>
      rw [hzero] at hc
      simp at hc
      rw [← hc] at hd
      simp [isDoneChunk] at hd
    | succ n =>
      rw [hget n] at hc
      rcases htail n c hc with ⟨_, s, rfl⟩ | ⟨heq, rfl⟩
      · simp [isDoneChunk] at hd
      · omega

/-! ### SQL generation with retries (`generateSqlQuery`, `llm.ts`)

The structured-generation collaborator (`generateObject`) is modelled as
a function from the attempt index and the built prompt to a query or an
error; the live engine (`dbManager.executeQuery`) as a function from the
statement to rows or an error.  Tracing (`langfuse`) has no effect on
control flow and is omitted.  The model returns, besides the result, the
prompt built at each attempt and the queries for which table samples
were pulled, so that the retry-grounding claims can be stated. -/

/-- A JS `Error` as observed by the retry loop: its message. -/
structure SqlError where
  message : String
deriving DecidableEq

/-- `ChatMessage` from the chat `types.ts`. -/
structure ChatMessage where
  role : String
  content : String

/-- `DatabaseMetadata` from the chat `types.ts` (the optional fields are
the parsed metadata document; `?? []` readings are the empty list). -/
structure DatabaseMetadata where
  table_schemas : List (String × String)
  sheets : List SheetInfo

/-- `formatDatabaseSchema` from `llm.ts`: the schema strings joined by
blank lines, or the placeholder when none exist. -/
def formatDatabaseSchema (tableSchemas : List (String × String)) : String :=
  if tableSchemas.isEmpty then "No database schema available."
  else String.intercalate "\n\n" (tableSchemas.map (fun p => p.2))

/-- The `Available Tables` section shared by both prompts. -/
def formatAvailableTables (sheets : List SheetInfo) : String :=
  String.intercalate "\n" (sheets.map
    (fun s => "- " ++ s.table ++ " (originally \"" ++ s.original_name ++ "\")"))

/-- The `User Conversation` section shared by both prompts. -/
def formatMessages (messages : List ChatMessage) : String :=
  String.intercalate "\n" (messages.map
    (fun m => m.role ++ ": " ++ m.content))

/-- `buildSqlPrompt` from `llm.ts`. -/
def buildSqlPrompt (messages : List ChatMessage)
    (metadata : DatabaseMetadata) : String :=
  "You are a SQL expert. Based on the following database schema and user conversation, generate a SQL query to answer the user's question.\n\nDatabase Schema:\n"
  ++ formatDatabaseSchema metadata.table_schemas
  ++ "\n\nAvailable Tables:\n"
  ++ formatAvailableTables metadata.sheets
  ++ "\n\nUser Conversation:\n"
  ++ formatMessages messages
  ++ "\n\nIMPORTANT: When referencing tables in your SQL query, you MUST prefix each table name with \"source_db.\" (e.g., \"source_db.sheet_sheet1\" instead of just \"sheet_sheet1\").\n\nGenerate ONLY a valid SQL SELECT query. Do not include any explanations or markdown formatting. Only use the tables and columns that exist in the schema above."

/-- The `ACTUAL DATA SAMPLES` section of the retry prompt: per table, up
to the first 3 rows, each cell rendered as `index: cell`. -/
def formatTableSamples
    (tableSamples : List (String × List (List String))) : String :=
  String.intercalate "\n\n" (tableSamples.map (fun p =>
    "Table: " ++ p.1 ++ "\nSample Data (first 3 rows):\n" ++
    String.intercalate "\n" ((p.2.take 3).map (fun row =>
      String.intercalate ", " (row.enum.map
        (fun q => toString q.1 ++ ": " ++ q.2))))))

/-- `buildRetrySqlPrompt` from `llm.ts`: the grounded retry prompt
embedding the failed query, the verbatim error message and the captured
samples. -/
def buildRetrySqlPrompt (messages : List ChatMessage)
    (metadata : DatabaseMetadata) (failedQuery : String) (error : SqlError)
    (tableSamples : List (String × List (List String))) : String :=
  "You are a SQL expert. The previous SQL query failed to execute. Please generate a corrected SQL query based on the error message and the actual data structure.\n\nDatabase Schema:\n"
  ++ formatDatabaseSchema metadata.table_schemas
  ++ "\n\nAvailable Tables:\n"
  ++ formatAvailableTables metadata.sheets
  ++ "\n\nUser Conversation:\n"
  ++ formatMessages messages
  ++ "\n\nFAILED QUERY:\n"
  ++ failedQuery
  ++ "\n\nERROR MESSAGE:\n"
  ++ error.message
  ++ "\n\nACTUAL DATA SAMPLES:\n"
  ++ formatTableSamples tableSamples
  ++ "\n\nIMPORTANT: \n1. When referencing tables in your SQL query, you MUST prefix each table name with \"source_db.\" (e.g., \"source_db.sheet_sheet1\" instead of just \"sheet_sheet1\").\n2. Analyze the error message and the actual data samples to understand what went wrong.\n3. Generate ONLY a valid SQL SELECT query that will execute successfully.\n4. Do not include any explanations or markdown formatting.\n5. Only use the tables and columns that exist in the schema above."

/-- JS regex `\w`: `[A-Za-z0-9_]`. -/
def isWordChar (c : Char) : Bool :=
  isStrictAlnum c || c = '_'

/-- Left-to-right non-overlapping matches of `/source_db\.(\w+)/g`: at a
match, capture the word and resume after it; otherwise advance one
character.  The fuel is the remaining length. -/
def scanSourceTables : Nat → List Char → List String
  | 0, _ => []
  | _, [] => []
  | fuel + 1, c :: rest =>
    if isPrefixList ("source_db.".data) (c :: rest) then
      let word := ((c :: rest).drop 10).takeWhile isWordChar
      if word.isEmpty then scanSourceTables fuel rest
      else String.mk word ::
        scanSourceTables fuel (((c :: rest).drop 10).drop word.length)
    else scanSourceTables fuel rest

/-- `[...new Set(list)]`: deduplicate keeping first occurrences. -/
def dedupFirst (l : List String) : List String :=
  l.foldl (fun acc x => if acc.contains x then acc else acc ++ [x]) []

/-- The table names referenced through the `source_db.` alias in a query
(`query.match(/source_db\.(\w+)/g)` with the prefix stripped and the
set-deduplication). -/
def parseSourceTables (q : String) : List String :=
  dedupFirst (scanSourceTables q.data.length q.data)

/-- `getTableSamples` from `llm.ts`: for every referenced table, run
`SELECT * FROM source_db.X LIMIT 3`; tables whose sample query fails are
skipped. -/
def getTableSamples (ex : String → Except SqlError (List (List String)))
    (query : String) : List (String × List (List String)) :=
  (parseSourceTables query).filterMap (fun tableName =>
    match ex ("SELECT * FROM source_db." ++ tableName ++ " LIMIT 3") with
    | Except.ok rows => some (tableName, rows)
    | Except.error _ => none)

deriving instance DecidableEq for Except

/-- Observable outcome of `generateSqlQuery`: the returned query or the
thrown error, the prompt built at each attempt (in order), and the
queries for which `getTableSamples` was invoked (in order). -/
structure GenOutcome where
  result : Except SqlError String
  prompts : List String
  sampleCalls : List String
deriving DecidableEq

/-- `maxRetries` of `generateSqlQuery`. -/
def maxRetries : Nat := 2

/-- The retry loop of `generateSqlQuery`: build the initial or retry
prompt, call the generation collaborator, and — when a live engine is
supplied and this is not the final attempt — test-execute the trimmed
query, capturing the error and (on the first failure only) the table
samples for the next prompt.  On the final attempt, or without an
engine, the trimmed query is returned without execution.  The `getD
"null"` readings model the TS non-null assertions `lastQuery!` and
`lastError!` rendered into the template when attempt 0 failed before
producing a query. -/
def genLoop (gen : Nat → String → Except SqlError String)
    (dbManager : Option (String → Except SqlError (List (List String))))
    (messages : List ChatMessage) (metadata : DatabaseMetadata) :
    Nat → Nat → Option String → Option SqlError →
    List (String × List (List String)) → List String → List String →
    GenOutcome
  | 0, _, _, lastError, _, prompts, calls =>
    ⟨Except.error
      (lastError.getD ⟨"SQL generation failed after all retries"⟩),
     prompts.reverse, calls.reverse⟩
  | fuel + 1, attempt, lastQuery, lastError, tableSamples, prompts, calls =>
    let sqlPrompt :=
      if attempt = 0 then buildSqlPrompt messages metadata
      else buildRetrySqlPrompt messages metadata (lastQuery.getD "null")
        (lastError.getD ⟨"null"⟩) tableSamples
    match gen attempt sqlPrompt with
    | Except.error e =>
      if attempt = maxRetries then
        ⟨Except.error e, (sqlPrompt :: prompts).reverse, calls.reverse⟩
      else
        genLoop gen dbManager messages metadata fuel (attempt + 1)
          lastQuery (some e) tableSamples (sqlPrompt :: prompts) calls
    | Except.ok q =>
      let cleanSqlQuery := jsTrim q
      match dbManager with
      | some ex =>
        if attempt < maxRetries then
          match ex cleanSqlQuery with
          | Except.ok _ =>
            ⟨Except.ok cleanSqlQuery, (sqlPrompt :: prompts).reverse,
             calls.reverse⟩
          | Except.error e =>
            if attempt = 0 then
              genLoop gen dbManager messages metadata fuel (attempt + 1)
                (some cleanSqlQuery) (some e)
                (getTableSamples ex cleanSqlQuery)
                (sqlPrompt :: prompts) (cleanSqlQuery :: calls)
            else
              genLoop gen dbManager messages metadata fuel (attempt + 1)
                (some cleanSqlQuery) (some e) tableSamples
                (sqlPrompt :: prompts) calls
        else
          ⟨Except.ok cleanSqlQuery, (sqlPrompt :: prompts).reverse,
           calls.reverse⟩
      | none =>
        ⟨Except.ok cleanSqlQuery, (sqlPrompt :: prompts).reverse,
         calls.reverse⟩

/-- `generateSqlQuery` from `llm.ts`: the loop over attempts
`0..maxRetries`. -/
def generateSqlQuery (gen : Nat → String → Except SqlError String)
    (dbManager : Option (String → Except SqlError (List (List String))))
    (messages : List ChatMessage) (metadata : DatabaseMetadata) :
    GenOutcome :=
  genLoop gen dbManager messages metadata (maxRetries + 1) 0 none none [] [] []

/-- JS `String.prototype.includes`: `x` occurs as a contiguous substring
of `s`. -/
def containsSub (s x : String) : Prop :=
  ∃ u v, s = u ++ x ++ v

theorem retry_prompt_contains_query (messages : List ChatMessage)
    (metadata : DatabaseMetadata) (failedQuery : String) (error : SqlError)
    (tableSamples : List (String × List (List String))) :
    containsSub (buildRetrySqlPrompt messages metadata failedQuery error
      tableSamples) failedQuery := by
  refine ⟨"You are a SQL expert. The previous SQL query failed to execute. Please generate a corrected SQL query based on the error message and the actual data structure.\n\nDatabase Schema:\n"
    ++ formatDatabaseSchema metadata.table_schemas
    ++ "\n\nAvailable Tables:\n"
    ++ formatAvailableTables metadata.sheets
    ++ "\n\nUser Conversation:\n"
    ++ formatMessages messages
    ++ "\n\nFAILED QUERY:\n",
    "\n\nERROR MESSAGE:\n"
    ++ error.message
    ++ "\n\nACTUAL DATA SAMPLES:\n"
    ++ formatTableSamples tableSamples
    ++ "\n\nIMPORTANT: \n1. When referencing tables in your SQL query, you MUST prefix each table name with \"source_db.\" (e.g., \"source_db.sheet_sheet1\" instead of just \"sheet_sheet1\").\n2. Analyze the error message and the actual data samples to understand what went wrong.\n3. Generate ONLY a valid SQL SELECT query that will execute successfully.\n4. Do not include any explanations or markdown formatting.\n5. Only use the tables and columns that exist in the schema above.", ?_⟩
  simp [buildRetrySqlPrompt, String.append_assoc]

theorem retry_prompt_contains_error (messages : List ChatMessage)
    (metadata : DatabaseMetadata) (failedQuery : String) (error : SqlError)
    (tableSamples : List (String × List (List String))) :
    containsSub (buildRetrySqlPrompt messages metadata failedQuery error
      tableSamples) error.message := by
  refine ⟨"You are a SQL expert. The previous SQL query failed to execute. Please generate a corrected SQL query based on the error message and the actual data structure.\n\nDatabase Schema:\n"
    ++ formatDatabaseSchema metadata.table_schemas
    ++ "\n\nAvailable Tables:\n"
    ++ formatAvailableTables metadata.sheets
    ++ "\n\nUser Conversation:\n"
    ++ formatMessages messages
    ++ "\n\nFAILED QUERY:\n"
    ++ failedQuery
    ++ "\n\nERROR MESSAGE:\n",
    "\n\nACTUAL DATA SAMPLES:\n"
    ++ formatTableSamples tableSamples
    ++ "\n\nIMPORTANT: \n1. When referencing tables in your SQL query, you MUST prefix each table name with \"source_db.\" (e.g., \"source_db.sheet_sheet1\" instead of just \"sheet_sheet1\").\n2. Analyze the error message and the actual data samples to understand what went wrong.\n3. Generate ONLY a valid SQL SELECT query that will execute successfully.\n4. Do not include any explanations or markdown formatting.\n5. Only use the tables and columns that exist in the schema above.", ?_⟩
  simp [buildRetrySqlPrompt, String.append_assoc]

theorem retry_prompt_contains_samples (messages : List ChatMessage)
    (metadata : DatabaseMetadata) (failedQuery : String) (error : SqlError)
    (tableSamples : List (String × List (List String))) :
    containsSub (buildRetrySqlPrompt messages metadata failedQuery error
      tableSamples) (formatTableSamples tableSamples) := by
  refine ⟨"You are a SQL expert. The previous SQL query failed to execute. Please generate a corrected SQL query based on the error message and the actual data structure.\n\nDatabase Schema:\n"
    ++ formatDatabaseSchema metadata.table_schemas
    ++ "\n\nAvailable Tables:\n"
    ++ formatAvailableTables metadata.sheets
    ++ "\n\nUser Conversation:\n"
    ++ formatMessages messages
    ++ "\n\nFAILED QUERY:\n"
    ++ failedQuery
    ++ "\n\nERROR MESSAGE:\n"
    ++ error.message
    ++ "\n\nACTUAL DATA SAMPLES:\n",
    "\n\nIMPORTANT: \n1. When referencing tables in your SQL query, you MUST prefix each table name with \"source_db.\" (e.g., \"source_db.sheet_sheet1\" instead of just \"sheet_sheet1\").\n2. Analyze the error message and the actual data samples to understand what went wrong.\n3. Generate ONLY a valid SQL SELECT query that will execute successfully.\n4. Do not include any explanations or markdown formatting.\n5. Only use the tables and columns that exist in the schema above.", ?_⟩
  simp [buildRetrySqlPrompt, String.append_assoc]

/-- C4 counterexample stub: the generator always produces the same
query. -/
def alwaysInvalidGen : Nat → String → Except SqlError String :=
  fun _ _ => Except.ok "SELECT nope"

/-- C4 counterexample stub: the engine rejects every statement. -/
def alwaysFailingExec : String → Except SqlError (List (List String)) :=
  fun _ => Except.error ⟨"Catalog Error: Table with name nope does not exist!"⟩

/-- C4 counterexample: with a live engine on which every execution
fails, `generateSqlQuery` returns the final attempt's query string
instead of re-raising the last execution error. -/
theorem C4_counterexample :
    (generateSqlQuery alwaysInvalidGen (some alwaysFailingExec) []
      ⟨[], []⟩).result = Except.ok "SELECT nope" := by
  decide

/-- C4 (amended): with a live engine, the generated query is test-executed
only on the non-final attempts; when both of those executions fail, the
final attempt's query is returned trimmed and unexecuted (with samples
pulled only for the first failure), not an error; `generateSqlQuery`
re-raises an error only when the generation collaborator itself fails on
the final attempt. -/
theorem C4_exhausted_retries
    (gen : Nat → String → Except SqlError String)
    (ex : String → Except SqlError (List (List String)))
    (messages : List ChatMessage) (metadata : DatabaseMetadata) :
    (∀ q0 q1 q2 : String, ∀ e0 e1 : SqlError,
      gen 0 (buildSqlPrompt messages metadata) = Except.ok q0 →
      ex (jsTrim q0) = Except.error e0 →
      gen 1 (buildRetrySqlPrompt messages metadata (jsTrim q0) e0
        (getTableSamples ex (jsTrim q0))) = Except.ok q1 →
      ex (jsTrim q1) = Except.error e1 →
      gen 2 (buildRetrySqlPrompt messages metadata (jsTrim q1) e1
        (getTableSamples ex (jsTrim q0))) = Except.ok q2 →
      generateSqlQuery gen (some ex) messages metadata =
        ⟨Except.ok (jsTrim q2),
         [buildSqlPrompt messages metadata,
          buildRetrySqlPrompt messages metadata (jsTrim q0) e0
            (getTableSamples ex (jsTrim q0)),
          buildRetrySqlPrompt messages metadata (jsTrim q1) e1
            (getTableSamples ex (jsTrim q0))],
         [jsTrim q0]⟩) ∧
    (∀ e0 e1 e2 : SqlError,
      gen 0 (buildSqlPrompt messages metadata) = Except.error e0 →
      gen 1 (buildRetrySqlPrompt messages metadata "null" e0 []) =
        Except.error e1 →
      gen 2 (buildRetrySqlPrompt messages metadata "null" e1 []) =
        Except.error e2 →
      (generateSqlQuery gen (some ex) messages metadata).result =
        Except.error e2) := by
  constructor
  · intro q0 q1 q2 e0 e1 h0 he0 h1 he1 h2
    simp [generateSqlQuery, genLoop, maxRetries, h0, he0, h1, he1, h2]
  · intro e0 e1 e2 h0 h1 h2
    simp [generateSqlQuery, genLoop, maxRetries, h0, h1, h2]

/-- C4 witness stubs: per-attempt generated queries. -/
def perAttemptGen : Nat → String → Except SqlError String :=
  fun n _ =>
    if n = 0 then Except.ok "SELECT a"
    else if n = 1 then Except.ok "SELECT b"
    else Except.ok "SELECT c"

/-- C4 witness: the first conjunct's hypotheses hold for the concrete
stubs, and the final attempt's query is returned. -/
theorem C4_exhausted_retries_witness :
    (generateSqlQuery perAttemptGen (some alwaysFailingExec) []
      ⟨[], []⟩).result = Except.ok "SELECT c" := by
  have h := (C4_exhausted_retries perAttemptGen alwaysFailingExec []
    ⟨[], []⟩).1 "SELECT a" "SELECT b" "SELECT c"
    ⟨"Catalog Error: Table with name nope does not exist!"⟩
    ⟨"Catalog Error: Table with name nope does not exist!"⟩
    (by decide) (by decide) (by decide) (by decide) (by decide)
  rw [h]
  decide

/-- C7: when the attempt-0 query fails execution and the attempt-1 query
succeeds, `generateSqlQuery` returns the attempt-1 query; table samples
are pulled exactly once, for the failed query (from the tables parsed
out of its text, at most 3 rows each being embedded), and the attempt-1
prompt is the retry prompt containing the failed query's text, the
verbatim error message and the formatted samples. -/
theorem C7_retry_grounding
    (gen : Nat → String → Except SqlError String)
    (ex : String → Except SqlError (List (List String)))
    (messages : List ChatMessage) (metadata : DatabaseMetadata)
    (q0 q1 : String) (e : SqlError) (rows : List (List String))
    (h0 : gen 0 (buildSqlPrompt messages metadata) = Except.ok q0)
    (he0 : ex (jsTrim q0) = Except.error e)
    (h1 : gen 1 (buildRetrySqlPrompt messages metadata (jsTrim q0) e
      (getTableSamples ex (jsTrim q0))) = Except.ok q1)
    (he1 : ex (jsTrim q1) = Except.ok rows) :
    generateSqlQuery gen (some ex) messages metadata =
      ⟨Except.ok (jsTrim q1),
       [buildSqlPrompt messages metadata,
        buildRetrySqlPrompt messages metadata (jsTrim q0) e
          (getTableSamples ex (jsTrim q0))],
       [jsTrim q0]⟩ ∧
    containsSub (buildRetrySqlPrompt messages metadata (jsTrim q0) e
      (getTableSamples ex (jsTrim q0))) (jsTrim q0) ∧
    containsSub (buildRetrySqlPrompt messages metadata (jsTrim q0) e
      (getTableSamples ex (jsTrim q0))) e.message ∧
    containsSub (buildRetrySqlPrompt messages metadata (jsTrim q0) e
      (getTableSamples ex (jsTrim q0)))
      (formatTableSamples (getTableSamples ex (jsTrim q0))) := by
  refine ⟨?_, retry_prompt_contains_query _ _ _ _ _,
    retry_prompt_contains_error _ _ _ _ _,
    retry_prompt_contains_samples _ _ _ _ _⟩
  simp [generateSqlQuery, genLoop, maxRetries, h0, he0, h1, he1]

/-- C7 witness stub: invalid query on attempt 0, valid on attempt 1. -/
def retryGen : Nat → String → Except SqlError String :=
  fun n _ =>
    if n = 0 then Except.ok "SELECT * FROM source_db.sheet_foo WHERE bad"
    else Except.ok "SELECT * FROM source_db.sheet_foo"

/-- C7 witness stub: the attempt-0 query fails, everything else (the
attempt-1 query and the `LIMIT 3` sample query) succeeds. -/
def retryExec : String → Except SqlError (List (List String)) :=
  fun q =>
    if q = "SELECT * FROM source_db.sheet_foo WHERE bad" then
      Except.error ⟨"Binder Error: column bad not found"⟩
    else Except.ok [["1", "a"], ["2", "b"]]

/-- C7 witness: on the concrete stubs, the attempt-1 query is returned
and the samples were pulled exactly for the failed attempt-0 query. -/
theorem C7_retry_grounding_witness :
    (generateSqlQuery retryGen (some retryExec) [] ⟨[], []⟩).result =
      Except.ok "SELECT * FROM source_db.sheet_foo" ∧
    (generateSqlQuery retryGen (some retryExec) [] ⟨[], []⟩).sampleCalls =
      ["SELECT * FROM source_db.sheet_foo WHERE bad"] := by
  have h := (C7_retry_grounding retryGen retryExec [] ⟨[], []⟩
    "SELECT * FROM source_db.sheet_foo WHERE bad"
    "SELECT * FROM source_db.sheet_foo"
    ⟨"Binder Error: column bad not found"⟩ [["1", "a"], ["2", "b"]]
    (by decide) (by decide) (by decide) (by decide)).1
  rw [h]
  constructor
  · decide
  · decide

/-! ### Claim C10: sanitized-column collisions -/

theorem recLookup_cons {α : Type} (k1 : String) (v1 : α)
    (r : List (String × α)) (k2 : String) :
    recLookup ((k1, v1) :: r) k2 =
      if k1 = k2 then some v1 else recLookup r k2 := by
  by_cases h : k1 = k2
  · simp [recLookup, List.find?, h]
  · simp [recLookup, List.find?, h]

theorem recLookup_recInsert {α : Type} (k : String) (v : α)
    (r : List (String × α)) (k2 : String) :
    recLookup (recInsert k v r) k2 =
      if k = k2 then some v else recLookup r k2 := by
  induction r with
  | nil =>
    rw [recInsert, recLookup_cons]
  | cons p rest ih =>
    obtain ⟨pk, pv⟩ := p
    rw [recInsert]
    by_cases hp : (pk, pv).1 = k
    · rw [if_pos hp, recLookup_cons, recLookup_cons]
      simp only at hp
      subst hp
      by_cases h : pk = k2
      · rw [if_pos h, if_pos h]
      · rw [if_neg h, if_neg h, if_neg h]
    · rw [if_neg hp, recLookup_cons, ih, recLookup_cons]
      simp only at hp
      by_cases h1 : pk = k2
      · rw [if_pos h1, if_neg (fun h2 : k = k2 => hp (h1.trans h2.symm)),
          if_pos h1]
      · by_cases h2 : k = k2
        · rw [if_neg h1, if_pos h2, if_pos h2]
        · rw [if_neg h1, if_neg h2, if_neg h2, if_neg h1]

theorem foldl_recInsert_lookup {α : Type} (e : List (String × α)) :
    ∀ (acc : List (String × α)) (k : String),
    recLookup (e.foldl (fun a p => recInsert p.1 p.2 a) acc) k =
      (match (e.filter (fun p => p.1 = k)).getLast? with
       | some p => some p.2
       | none => recLookup acc k) := by
  induction e with
  | nil => intro acc k; rfl
  | cons p rest ih =>
    intro acc k
    rw [List.foldl_cons, ih]
    by_cases hp : p.1 = k
    · rw [List.filter_cons_of_pos (by simp [hp])]
      cases hr : rest.filter (fun q => q.1 = k) with
      | nil =>
        simp only [List.getLast?_nil, List.getLast?_singleton]
        rw [recLookup_recInsert, if_pos hp]
      | cons q qs =>
        rw [List.getLast?_cons_cons,
          List.getLast?_eq_getLast_of_ne_nil (List.cons_ne_nil q qs)]
    · rw [List.filter_cons_of_neg (by simp [hp])]
      cases hr : rest.filter (fun q => q.1 = k) with
      | nil =>
        simp only [List.getLast?_nil]
        rw [recLookup_recInsert, if_neg hp]
      | cons q qs =>
        rw [List.getLast?_eq_getLast_of_ne_nil (List.cons_ne_nil q qs)]

theorem recKeys_nodup_recInsert {α : Type} {k : String} {v : α}
    {r : List (String × α)} (h : (recKeys r).Nodup) :
    (recKeys (recInsert k v r)).Nodup := by
  induction r with
  | nil => simp [recInsert, recKeys]
  | cons p rest ih =>
    rw [recKeys, List.map_cons] at h
    have hnotin : p.1 ∉ recKeys rest := by
      have := List.nodup_cons.mp h
      simpa [recKeys] using this.1
    have htail : (recKeys rest).Nodup := (List.nodup_cons.mp h).2
    by_cases hp : p.1 = k
    · rw [recInsert, if_pos hp, recKeys, List.map_cons]
      rw [← hp]
      exact List.nodup_cons.mpr ⟨hnotin, htail⟩
    · rw [recInsert, if_neg hp, recKeys, List.map_cons]
      apply List.nodup_cons.mpr
      constructor
      · intro hmem
        rcases (mem_recKeys_recInsert).mp hmem with hEq | hmem2
        · exact hp hEq
        · exact hnotin hmem2
      · exact ih htail

theorem fromEntries_keys_nodup {α : Type} (e : List (String × α)) :
    (recKeys (fromEntries e)).Nodup := by
  have hgen : ∀ acc : List (String × α), (recKeys acc).Nodup →
      (recKeys (e.foldl (fun a p => recInsert p.1 p.2 a) acc)).Nodup := by
    induction e with
    | nil => intro acc h; exact h
    | cons p rest ih =>
      intro acc h
      rw [List.foldl_cons]
      exact ih _ (recKeys_nodup_recInsert h)
  exact hgen [] (by simp [recKeys])

theorem mem_recKeys_of_lookup {α : Type} {r : List (String × α)}
    {k : String} {v : α} (h : recLookup r k = some v) : k ∈ recKeys r := by
  unfold recLookup at h
  cases hf : r.find? (fun p => p.1 = k) with
  | none =>
    rw [hf] at h
    simp at h
  | some p =>
    have hp : p.1 = k := by
      have := List.find?_some hf
      simpa using this
    exact List.mem_map.mpr ⟨p, List.mem_of_find?_eq_some hf, hp⟩

/-- C10: when distinct original headers of a sheet sanitize to the same
column name, the later header's mapping overwrites the earlier one: the
column map sends the sanitized name to the last colliding header, the
created table carries exactly one column under that name, and every
inserted value at that column position comes from the later original
column, so the earlier column's data is never inserted. -/
theorem C10_column_collision (rows : List Row)
    (n hEarlier hLater : String)
    (hlast : ((((rows.headD []).map (fun p => p.1)).filter keepCol).filter
      (fun c => sanitizeColumnName c = n)).getLast? = some hLater)
    (_hmem : hEarlier ∈ ((rows.headD []).map (fun p => p.1)).filter keepCol)
    (_hne : hEarlier ≠ hLater)
    (_hsan : sanitizeColumnName hEarlier = n) :
    recLookup (sheetColMapping rows) n = some hLater ∧
    (sheetCols rows).count n = 1 ∧
    (∀ row : Row, ∀ i : Nat, (sheetCols rows)[i]? = some n →
      (sheetRowValues rows row)[i]? = some (cellValue row hLater)) := by
  have hlook : recLookup (sheetColMapping rows) n = some hLater := by
    unfold sheetColMapping fromEntries
    rw [foldl_recInsert_lookup, List.filter_map]
    have hfun : ((fun p : String × String => decide (p.1 = n)) ∘
        (fun col => (sanitizeColumnName col, col))) =
        (fun c => decide (sanitizeColumnName c = n)) := by
      funext c
      rfl
    rw [hfun, List.getLast?_map, hlast]
    rfl
  refine ⟨hlook, ?_, ?_⟩
  · have hnd : (sheetCols rows).Nodup := fromEntries_keys_nodup _
    have hm : n ∈ sheetCols rows := mem_recKeys_of_lookup hlook
    exact List.count_eq_one_of_mem hnd hm
  · intro row i hi
    unfold sheetRowValues
    rw [List.getElem?_map, hi]
    simp [hlook]

/-- C10 witness: a sheet whose headers `"a b"` and `"a_b"` both sanitize
to `a_b`. -/
def collisionRows : List Row :=
  [[("a b", some "1"), ("a_b", some "2")]]

/-- C10 witness: on the colliding sheet, the column map points to the
later header `"a_b"`, the table has one such column, and the inserted
value is the later column's `"2"`, not the earlier `"1"`. -/
theorem C10_column_collision_witness :
    recLookup (sheetColMapping collisionRows) "a_b" = some "a_b" ∧
    (sheetCols collisionRows).count "a_b" = 1 ∧
    (sheetRowValues collisionRows
      [("a b", some "1"), ("a_b", some "2")])[0]? = some "2" := by
  have h := C10_column_collision collisionRows "a_b" "a b" "a_b"
    (by decide) (by decide) (by decide) (by decide)
  refine ⟨h.1, h.2.1, ?_⟩
  have h3 := h.2.2 [("a b", some "1"), ("a_b", some "2")] 0 (by decide)
  rw [h3]
  decide

end XlsxAnalytics
